import Mathlib

/-!
The nnf-deploy `config` package: validation and lookup.

A shallow embedding of `config/config.go`:

* Go slices are `List`s; a Go `map` that is ranged over is the `List` of its
  entries in the order the `range` statement visits them; a `map[string]bool`
  used as a set of seen keys is the `List` of the keys stored so far.
* A Go `error` result is `Option GoError` (`none` is `nil`); a
  `(*T, error)` result is `Except GoError T`.
* The package variable `sysCfgPath` is threaded explicitly: a function that
  reads it takes it as an argument, a function that writes it returns the new
  value next to its result.
* `os.ReadFile`, `filepath.Join` and `yaml.UnmarshalStrict` live outside the
  package and are the fields of `World`.
-/

namespace config

/-! ## Data model -/

/-- The `System` struct of `config.go`. `Rabbits` is `map[string]map[int]string`:
the entries of the outer and of each inner map, in iteration order. -/
structure System where
  Name : String
  Aliases : List String
  Overlays : List String
  Workers : List String
  Rabbits : List (String × List (Int × String))
  Ports : List String
  K8sHost : String
  K8sPort : String
deriving DecidableEq, Repr

/-- The `SystemConfigFile` struct. -/
structure SystemConfigFile where
  Systems : List System
deriving DecidableEq, Repr

/-- The anonymous `RemoteReference` struct inside `Repository`. -/
structure RemoteReference where
  Build : String
  Url : String
deriving DecidableEq, Repr

/-- The `Repository` struct. -/
structure Repository where
  Name : String
  Overlays : List String
  Development : String
  Master : String
  UseRemoteK : Bool
  RemoteReference : RemoteReference
deriving DecidableEq, Repr

/-- One entry of `BuildConfiguration.Env`. -/
structure EnvVar where
  Name : String
  Value : String
deriving DecidableEq, Repr

/-- The `BuildConfiguration` struct. -/
structure BuildConfiguration where
  Env : List EnvVar
deriving DecidableEq, Repr

/-- The `ThirdPartyService` struct. -/
structure ThirdPartyService where
  Name : String
  UseRemoteF : Bool
  Url : String
  WaitCmd : String
deriving DecidableEq, Repr

/-- The `RepositoryConfigFile` struct. -/
structure RepositoryConfigFile where
  Repositories : List Repository
  BuildConfig : BuildConfiguration
  ThirdPartyServices : List ThirdPartyService
deriving DecidableEq, Repr

/-- The anonymous `ServiceAccount` struct inside `Daemon`. -/
structure ServiceAccount where
  Name : String
  Namespace : String
deriving DecidableEq, Repr

/-- The `Daemon` struct. -/
structure Daemon where
  Name : String
  Bin : String
  BuildCmd : String
  Repository : String
  Path : String
  SkipNnfNodeName : Bool
  ServiceAccount : ServiceAccount
  ExtraArgs : String
deriving DecidableEq, Repr

/-- The `DaemonConfigFile` struct. -/
structure DaemonConfigFile where
  Daemons : List Daemon
deriving DecidableEq, Repr

/-! ## Errors -/

/-- The error values the package handles. `external` is an error made outside
the package (by `os`, by `yaml` or by a caller's handler), known by its
message; every other constructor is one `fmt.Errorf` call site of `config.go`
with the arguments it is given. -/
inductive GoError where
  | external (msg : String)
  | systemNotFound (name : String)
  | couldNotRead (cause : GoError)
  | invalidYaml (cause : GoError)
  | invalidConfig (cause : GoError)
  | dupSystemName (name path : String)
  | dupAliasFile (als path : String)
  | noRabbits (system path : String)
  | dupCompute (compute system path : String)
  | dupAliasSystem (als system path : String)
  | noOverlays (system path : String)
  | dupOverlay (overlay system path : String)
  | noWorkers (system path : String)
  | dupWorker (worker system path : String)
  | repositoryNotFound (module : String)
deriving DecidableEq, Repr

/-- The `Error()` method: the message each `fmt.Errorf` call formats
(`%s` inserts the string, `%v` the cause's own message). -/
def GoError.Error : GoError → String
  | .external msg => msg
  | .systemNotFound name => "System '" ++ name ++ "' Not Found"
  | .couldNotRead cause => "could not read system config: " ++ cause.Error
  | .invalidYaml cause => "invalid system config yaml: " ++ cause.Error
  | .invalidConfig cause => "invalid system config: " ++ cause.Error
  | .dupSystemName name path =>
      "system name '" ++ name ++ "' declared more than once in '" ++ path ++ "'"
  | .dupAliasFile als path =>
      "alias '" ++ als ++ "' declared more than once in '" ++ path ++ "'"
  | .noRabbits system path =>
      "no rabbit nodes declared for system '" ++ system ++ "' in '" ++ path ++ "'"
  | .dupCompute compute system path =>
      "compute node '" ++ compute ++ "' declared more than once for system '" ++ system
        ++ "' in '" ++ path ++ "'"
  | .dupAliasSystem als system path =>
      "alias '" ++ als ++ "' declared more than once for system '" ++ system
        ++ "' in '" ++ path ++ "'"
  | .noOverlays system path =>
      "no overlays declared for system '" ++ system ++ "' in '" ++ path ++ "'"
  | .dupOverlay overlay system path =>
      "overlay'" ++ overlay ++ "' declared more than once for system '" ++ system
        ++ "' in '" ++ path ++ "'"
  | .noWorkers system path =>
      "no workers declared for system '" ++ system ++ "' in '" ++ path ++ "'"
  | .dupWorker worker system path =>
      "worker node '" ++ worker ++ "' declared more than once for system '" ++ system
        ++ "' in '" ++ path ++ "'"
  | .repositoryNotFound module => "Repository '" ++ module ++ "' Not Found"

/-- The text `sub` occurs somewhere inside the text `s`. -/
def Mentions (s sub : String) : Prop := sub.data <:+: s.data

instance (s sub : String) : Decidable (Mentions s sub) := by
  unfold Mentions; infer_instance

/-! ## Validation of a system topology file -/

/-- The loop `for _, x := range xs { if _, found := known[x]; found { return err(x) };
known[x] = true }`: `.error x` at the first `x` already in `known`, otherwise
the set after the loop. -/
def scanKnown : List String → List String → Except String (List String)
  | known, [] => .ok known
  | known, x :: xs => if x ∈ known then .error x else scanKnown (x :: known) xs

/-- The nested loop of `System.Verify` over `system.Rabbits`: every slot value
of every rabbit is checked against, then added to, `knownComputes`. -/
def scanRabbits :
    List String → List (String × List (Int × String)) → Except String (List String)
  | known, [] => .ok known
  | known, (_, computes) :: rest =>
      match scanKnown known (computes.map Prod.snd) with
      | .error compute => .error compute
      | .ok known' => scanRabbits known' rest

/-- The method `(*System).Verify`, reading the package variable `sysCfgPath`. -/
def System.Verify (sysCfgPath : String) (system : System) : Option GoError :=
  if system.Rabbits.length < 1 then
    some (.noRabbits system.Name sysCfgPath)
  else
    match scanRabbits [] system.Rabbits with
    | .error compute => some (.dupCompute compute system.Name sysCfgPath)
    | .ok _ =>
      match scanKnown [] system.Aliases with
      | .error als => some (.dupAliasSystem als system.Name sysCfgPath)
      | .ok _ =>
        if system.Overlays.length < 1 then
          some (.noOverlays system.Name sysCfgPath)
        else
          match scanKnown [] system.Overlays with
          | .error overlay => some (.dupOverlay overlay system.Name sysCfgPath)
          | .ok _ =>
            if system.Workers.length < 1 then
              some (.noWorkers system.Name sysCfgPath)
            else
              match scanKnown [] system.Workers with
              | .error worker => some (.dupWorker worker system.Name sysCfgPath)
              | .ok _ => none

/-- The loop of `(*SystemConfigFile).Verify` over `config.Systems`, from the
state `knownNames`, `knownAlias` it has reached. -/
def verifySystems (sysCfgPath : String) :
    List String → List String → List System → Option GoError
  | _, _, [] => none
  | knownNames, knownAlias, system :: rest =>
      if system.Name ∈ knownNames then
        some (.dupSystemName system.Name sysCfgPath)
      else
        match scanKnown knownAlias system.Aliases with
        | .error als => some (.dupAliasFile als sysCfgPath)
        | .ok knownAlias' =>
          match system.Verify sysCfgPath with
          | some err => some err
          | none => verifySystems sysCfgPath (system.Name :: knownNames) knownAlias' rest

/-- The method `(*SystemConfigFile).Verify`, reading `sysCfgPath`. -/
def SystemConfigFile.Verify (sysCfgPath : String) (config : SystemConfigFile) :
    Option GoError :=
  verifySystems sysCfgPath [] [] config.Systems

/-! ## Loading and lookup -/

/-- What the package calls outside itself: `os.ReadFile`, `filepath.Join` on
two elements, and `yaml.UnmarshalStrict` at each of the three target types. -/
structure World where
  ReadFile : String → Except GoError String
  Join : String → String → String
  UnmarshalSystems : String → Except GoError SystemConfigFile
  UnmarshalRepositories : String → Except GoError RepositoryConfigFile
  UnmarshalDaemons : String → Except GoError DaemonConfigFile

/-- The function `ReadConfig`: the result, and `sysCfgPath` after the call. -/
def ReadConfig (w : World) (path : String) (sysCfgPath : String) :
    Except GoError SystemConfigFile × String :=
  match w.ReadFile path with
  | .error err => (.error (.couldNotRead err), sysCfgPath)
  | .ok configFile =>
    match w.UnmarshalSystems configFile with
    | .error err => (.error (.invalidYaml err), sysCfgPath)
    | .ok config =>
      match config.Verify path with
      | some err => (.error (.invalidConfig err), path)
      | none => (.ok config, path)

/-- The loop of `FindSystem` over `config.Systems`; the inner loop over
`system.Aliases` returns the system at the first alias equal to `name`. -/
def findSystemLoop (name : String) : List System → Option System
  | [] => none
  | system :: rest =>
      if system.Name = name then some system
      else if system.Aliases.any (fun als => als = name) then some system
      else findSystemLoop name rest

/-- The function `FindSystem`: the result, and `sysCfgPath` after the call. -/
def FindSystem (w : World) (name configPath : String) (sysCfgPath : String) :
    Except GoError System × String :=
  match ReadConfig w configPath sysCfgPath with
  | (.error err, p) => (.error err, p)
  | (.ok config, p) =>
    match findSystemLoop name config.Systems with
    | some system => (.ok system, p)
    | none => (.error (.systemNotFound name), p)

/-- The function `readConfigFile`, with its retry one directory up. -/
def readConfigFile (w : World) (configPath : String) : Except GoError RepositoryConfigFile :=
  match w.ReadFile configPath with
  | .ok configFile => w.UnmarshalRepositories configFile
  | .error _ =>
    match w.ReadFile (w.Join ".." configPath) with
    | .error err => .error err
    | .ok configFile => w.UnmarshalRepositories configFile

/-- The loop of `FindRepository` over `config.Repositories`. -/
def findRepositoryLoop (module : String) : List Repository → Option Repository
  | [] => none
  | repository :: rest =>
      if module = repository.Name then some repository
      else findRepositoryLoop module rest

/-- The function `FindRepository`. Its three results `(*Repository,
*BuildConfiguration, error)` are, in this order, the components of the triple. -/
def FindRepository (w : World) (configPath module : String) :
    Option Repository × Option BuildConfiguration × Option GoError :=
  match readConfigFile w configPath with
  | .error err => (none, none, some err)
  | .ok config =>
    match findRepositoryLoop module config.Repositories with
    | some repository => (some repository, some config.BuildConfig, none)
    | none => (none, none, some (.repositoryNotFound module))

/-- The function `GetThirdPartyServices`. -/
def GetThirdPartyServices (w : World) (configPath : String) :
    Except GoError (List ThirdPartyService) :=
  match readConfigFile w configPath with
  | .error err => .error err
  | .ok config => .ok config.ThirdPartyServices

/-- The loop of `EnumerateDaemons`: `handleFn` acts on a state of the caller
and returns an error or `nil`; the loop stops at the first error. -/
def enumerateLoop {σ : Type} (handleFn : Daemon → σ → Option GoError × σ) :
    List Daemon → σ → Option GoError × σ
  | [], s => (none, s)
  | daemon :: rest, s =>
      match handleFn daemon s with
      | (some err, s') => (some err, s')
      | (none, s') => enumerateLoop handleFn rest s'

/-- The function `EnumerateDaemons`. -/
def EnumerateDaemons {σ : Type} (w : World) (configPath : String)
    (handleFn : Daemon → σ → Option GoError × σ) (s : σ) : Option GoError × σ :=
  match w.ReadFile configPath with
  | .error err => (some err, s)
  | .ok configFile =>
    match w.UnmarshalDaemons configFile with
    | .error err => (some err, s)
    | .ok config => enumerateLoop handleFn config.Daemons s

/-! ## Derived collections and observers used in the statements -/

/-- Every compute-node name of a system: the slot values of all its rabbits. -/
def System.computes (system : System) : List String :=
  (system.Rabbits.map (fun rabbit => rabbit.2.map Prod.snd)).flatten

/-- Every alias entry of the file, system after system. -/
def SystemConfigFile.aliases (config : SystemConfigFile) : List String :=
  (config.Systems.map System.Aliases).flatten

/-- An observer around a handler: it runs `handleFn` on the caller's state and
appends the daemon it was called on, with the result of that call, to a log. -/
def traced {σ : Type} (handleFn : Daemon → σ → Option GoError × σ) :
    Daemon → σ × List (Daemon × Option GoError) →
      Option GoError × (σ × List (Daemon × Option GoError))
  | daemon, (s, log) =>
      ((handleFn daemon s).1, ((handleFn daemon s).2, log ++ [(daemon, (handleFn daemon s).1)]))

/-! ## Sample inputs -/

/-- A well-formed system with the given name and aliases. -/
def sampleSystem (name : String) (aliases : List String) : System :=
  ⟨name, aliases, ["overlay0"], ["worker0"],
    [("rabbit0", [(0, name ++ "-compute0"), (1, name ++ "-compute1")])], [], "", ""⟩

/-- A system that declares an alias but no rabbit. -/
def bareSystem (name : String) (aliases : List String) : System :=
  ⟨name, aliases, ["overlay0"], ["worker0"], [], [], "", ""⟩

/-- A topology file with two well-formed systems. -/
def sampleSystems : SystemConfigFile :=
  ⟨[sampleSystem "clusterX" ["nodeA", "nodeB"], sampleSystem "clusterY" ["nodeC"]]⟩

/-- A topology file whose two systems both declare the alias `a1`. -/
def sharedAliasSystems : SystemConfigFile :=
  ⟨[sampleSystem "clusterX" ["a1"], sampleSystem "clusterY" ["a2", "a1"]]⟩

/-- A topology file whose two systems both declare the alias `a1`, the first
of them without any rabbit. -/
def bareSharedAliasSystems : SystemConfigFile :=
  ⟨[bareSystem "clusterX" ["a1"], sampleSystem "clusterY" ["a1"]]⟩

/-- A repository with the given name and development branch. -/
def sampleRepository (name development : String) : Repository :=
  ⟨name, ["overlay0"], development, "master", false, ⟨"", ""⟩⟩

/-- A repository file in which the name `repoA` is declared twice. -/
def sampleRepositories : RepositoryConfigFile :=
  ⟨[sampleRepository "repoB" "main", sampleRepository "repoA" "first",
      sampleRepository "repoA" "second"],
    ⟨[⟨"GOFLAGS", "-mod=vendor"⟩]⟩, []⟩

/-- A daemon with the given name. -/
def sampleDaemon (name : String) : Daemon :=
  ⟨name, name, "make", "repoA", "bin", false, ⟨"", ""⟩, ""⟩

/-- A manifest of four daemons. -/
def sampleDaemons : DaemonConfigFile :=
  ⟨[sampleDaemon "d1", sampleDaemon "d2", sampleDaemon "d3", sampleDaemon "d4"]⟩

/-- A world in which every path but `missing.yaml` is readable and decodes to
the given documents. -/
def sampleWorld (systems : SystemConfigFile) : World :=
  ⟨fun path => if path = "missing.yaml" then .error (.external "no such file") else .ok path,
    fun dir path => dir ++ "/" ++ path,
    fun _ => .ok systems,
    fun _ => .ok sampleRepositories,
    fun _ => .ok sampleDaemons⟩

/-- A handler that counts its calls and fails on the daemon `d2`. -/
def sampleHandler (daemon : Daemon) (calls : Nat) : Option GoError × Nat :=
  if daemon.Name = "d2" then (some (.external "build failed"), calls + 1)
  else (none, calls + 1)

/-! ## Further observers and sample inputs -/

/-- The system `system` with its rabbits mapping enumerated as `rabbits`. -/
def System.withRabbits (system : System) (rabbits : List (String × List (Int × String))) :
    System :=
  ⟨system.Name, system.Aliases, system.Overlays, system.Workers, rabbits, system.Ports,
    system.K8sHost, system.K8sPort⟩

/-- Two enumerations of one rabbits mapping: the same entries, each rabbit with
the same slots, the rabbits and the slots of each rabbit in any order. -/
def SameRabbits (r r' : List (String × List (Int × String))) : Prop :=
  ∃ m, List.Forall₂ (fun a b => a.1 = b.1 ∧ a.2.Perm b.2) r m ∧ m.Perm r'

/-- A world in which no file can be read. -/
def unreadableWorld : World :=
  ⟨fun path => .error (.external ("open " ++ path ++ ": no such file or directory")),
    fun dir path => dir ++ "/" ++ path,
    fun _ => .ok sampleSystems,
    fun _ => .ok sampleRepositories,
    fun _ => .ok sampleDaemons⟩

/-- A world in which every file is readable and none decodes. -/
def undecodableWorld : World :=
  ⟨fun path => .ok path,
    fun dir path => dir ++ "/" ++ path,
    fun _ => .error (.external "yaml: unmarshal errors"),
    fun _ => .error (.external "yaml: unmarshal errors"),
    fun _ => .error (.external "yaml: unmarshal errors")⟩

/-- A world in which `missing.yaml` cannot be read, every other file is
readable, and no repository document decodes. -/
def fallbackUndecodableWorld : World :=
  ⟨fun path => if path = "missing.yaml" then .error (.external "no such file") else .ok path,
    fun dir path => dir ++ "/" ++ path,
    fun _ => .ok sampleSystems,
    fun _ => .error (.external "yaml: unmarshal errors"),
    fun _ => .ok sampleDaemons⟩

/-- A topology file in which the second system's name is an alias of the first. -/
def aliasedNameSystems : SystemConfigFile :=
  ⟨[sampleSystem "clusterX" ["clusterY"], sampleSystem "clusterY" []]⟩

/-- A repository file that declares two third-party services. -/
def serviceRepositories : RepositoryConfigFile :=
  ⟨[sampleRepository "repoA" "main"], ⟨[]⟩,
    [⟨"cert-manager", true, "https://example.org/cert-manager.yaml", "kubectl wait"⟩,
     ⟨"mpi-operator", false, "https://example.org/mpi-operator.yaml", ""⟩]⟩

/-- A world in which every file is readable and the repository document
decodes to `serviceRepositories`. -/
def servicesWorld : World :=
  ⟨fun path => .ok path,
    fun dir path => dir ++ "/" ++ path,
    fun _ => .ok sampleSystems,
    fun _ => .ok serviceRepositories,
    fun _ => .ok sampleDaemons⟩

/-- A system whose two rabbits hold the same two compute nodes, in opposite
slots. -/
def crossedSystem : System :=
  ⟨"clusterX", [], ["overlay0"], ["worker0"],
    [("rabbit0", [(0, "x"), (1, "y")]), ("rabbit1", [(0, "y"), (1, "x")])], [], "", ""⟩

/-- The rabbits of `crossedSystem`, enumerated from the second rabbit. -/
def crossedRabbitsReversed : List (String × List (Int × String)) :=
  [("rabbit1", [(0, "y"), (1, "x")]), ("rabbit0", [(0, "x"), (1, "y")])]

/-! ## Lemmas and claims -/

theorem scanKnown_append (known xs ys : List String) :
    scanKnown known (xs ++ ys) =
      match scanKnown known xs with
      | .error x => .error x
      | .ok known' => scanKnown known' ys := by
  induction xs generalizing known with
  | nil => simp [scanKnown]
  | cons x xs ih =>
    by_cases hx : x ∈ known
    · simp [scanKnown, hx]
    · simp [scanKnown, hx, ih]

theorem scanRabbits_eq (known : List String) (rabbits : List (String × List (Int × String))) :
    scanRabbits known rabbits
      = scanKnown known (rabbits.map (fun rabbit => rabbit.2.map Prod.snd)).flatten := by
  induction rabbits generalizing known with
  | nil => simp [scanRabbits, scanKnown]
  | cons r rest ih =>
    obtain ⟨n, cs⟩ := r
    simp only [scanRabbits, List.map_cons, List.flatten_cons, scanKnown_append]
    cases h : scanKnown known (cs.map Prod.snd) with
    | error e => simp
    | ok k => simp [ih]

theorem scanKnown_ok_iff (known xs known' : List String) :
    scanKnown known xs = .ok known' ↔
      xs.Nodup ∧ (∀ x ∈ xs, x ∉ known) ∧ known' = xs.reverse ++ known := by
  induction xs generalizing known with
  | nil => simp [scanKnown, eq_comm]
  | cons x xs ih =>
    by_cases hx : x ∈ known
    · simp [scanKnown, hx]
    · rw [scanKnown, if_neg hx, ih]
      simp only [List.nodup_cons, List.mem_cons, List.reverse_cons,
        List.append_assoc, List.singleton_append, forall_eq_or_imp, not_or]
      constructor
      · rintro ⟨h1, h2, h3⟩
        exact ⟨⟨fun hm => (h2 x hm).1 rfl, h1⟩, ⟨hx, fun y hy => (h2 y hy).2⟩, h3⟩
      · rintro ⟨⟨h0, h1⟩, ⟨_, h2⟩, h3⟩
        exact ⟨h1, fun y hy => ⟨fun e => h0 (e ▸ hy), h2 y hy⟩, h3⟩

theorem scanKnown_error_iff (known xs : List String) (x : String) :
    scanKnown known xs = .error x ↔
      ∃ l₁ l₂, xs = l₁ ++ x :: l₂ ∧ l₁.Nodup ∧ (∀ y ∈ l₁, y ∉ known) ∧ (x ∈ l₁ ∨ x ∈ known) := by
  induction xs generalizing known with
  | nil => simp [scanKnown]
  | cons a xs ih =>
    by_cases ha : a ∈ known
    · simp only [scanKnown, ha, if_true, Except.error.injEq]
      constructor
      · rintro rfl
        exact ⟨[], xs, rfl, List.nodup_nil, by simp, Or.inr ha⟩
      · rintro ⟨l₁, l₂, h, -, hd, -⟩
        cases l₁ with
        | nil =>
          simp only [List.nil_append, List.cons.injEq] at h
          exact h.1
        | cons b l₁ =>
          simp only [List.cons_append, List.cons.injEq] at h
          exact absurd ha (h.1 ▸ hd b (List.mem_cons_self _ _))
    · simp only [scanKnown, ha, if_false, ih]
      constructor
      · rintro ⟨l₁, l₂, h, hn, hd, hx⟩
        refine ⟨a :: l₁, l₂, by simp [h], ?_, ?_, ?_⟩
        · exact List.nodup_cons.2 ⟨fun hm => (hd a hm) (List.mem_cons_self _ _), hn⟩
        · intro y hy
          rcases List.mem_cons.1 hy with rfl | hy
          · exact ha
          · exact fun hk => hd y hy (List.mem_cons_of_mem _ hk)
        · rcases hx with hx | hx
          · exact Or.inl (List.mem_cons_of_mem _ hx)
          · rcases List.mem_cons.1 hx with rfl | hx
            · exact Or.inl (List.mem_cons_self _ _)
            · exact Or.inr hx
      · rintro ⟨l₁, l₂, h, hn, hd, hx⟩
        cases l₁ with
        | nil =>
          simp only [List.nil_append, List.cons.injEq] at h
          rcases hx with hx | hx
          · simp at hx
          · exact absurd (h.1 ▸ hx) ha
        | cons b l₁ =>
          simp only [List.cons_append, List.cons.injEq] at h
          obtain ⟨rfl, rfl⟩ := h
          refine ⟨l₁, l₂, rfl, (List.nodup_cons.1 hn).2, ?_, ?_⟩
          · intro y hy hk
            rcases List.mem_cons.1 hk with rfl | hk
            · exact (List.nodup_cons.1 hn).1 hy
            · exact hd y (List.mem_cons_of_mem _ hy) hk
          · rcases hx with hx | hx
            · rcases List.mem_cons.1 hx with rfl | hx
              · exact Or.inr (List.mem_cons_self _ _)
              · exact Or.inl hx
            · exact Or.inr (List.mem_cons_of_mem _ hx)

theorem scanKnown_nil_ok_iff (xs : List String) :
    (∃ known', scanKnown [] xs = .ok known') ↔ xs.Nodup := by
  constructor
  · rintro ⟨k, hk⟩
    exact ((scanKnown_ok_iff [] xs k).1 hk).1
  · intro h
    exact ⟨xs.reverse ++ [], (scanKnown_ok_iff [] xs _).2 ⟨h, by simp, rfl⟩⟩

theorem scanKnown_error_count (known xs : List String) (x : String)
    (h : scanKnown known xs = .error x) : x ∈ xs ∧ (x ∈ known ∨ 2 ≤ xs.count x) := by
  obtain ⟨l₁, l₂, rfl, -, -, hx⟩ := (scanKnown_error_iff known xs x).1 h
  refine ⟨by simp, ?_⟩
  rcases hx with hx | hx
  · right
    have h1 : 1 ≤ l₁.count x := List.count_pos_iff.2 hx
    simp only [List.count_append, List.count_cons_self]
    omega
  · exact Or.inl hx

theorem scanKnown_nil_error_iff (xs : List String) :
    (∃ x, scanKnown [] xs = .error x) ↔ ¬ xs.Nodup := by
  constructor
  · rintro ⟨x, hx⟩ hn
    obtain ⟨k, hk⟩ := (scanKnown_nil_ok_iff xs).2 hn
    rw [hk] at hx
    cases hx
  · intro hn
    cases h : scanKnown [] xs with
    | error x => exact ⟨x, rfl⟩
    | ok k => exact absurd ((scanKnown_nil_ok_iff xs).1 ⟨k, h⟩) hn

theorem length_lt_one_iff {α : Type} (l : List α) : l.length < 1 ↔ l = [] := by
  cases l <;> simp

/-- The decision table of `System.Verify`: which branch returns, and why. -/
theorem systemVerify_table (p : String) (s : System) :
    (s.Rabbits = [] ∧ s.Verify p = some (.noRabbits s.Name p)) ∨
    (s.Rabbits ≠ [] ∧ ¬ s.computes.Nodup ∧ ∃ c, scanKnown [] s.computes = .error c ∧
        s.Verify p = some (.dupCompute c s.Name p)) ∨
    (s.Rabbits ≠ [] ∧ s.computes.Nodup ∧ ¬ s.Aliases.Nodup ∧ ∃ a, scanKnown [] s.Aliases = .error a ∧
        s.Verify p = some (.dupAliasSystem a s.Name p)) ∨
    (s.Rabbits ≠ [] ∧ s.computes.Nodup ∧ s.Aliases.Nodup ∧ s.Overlays = [] ∧
        s.Verify p = some (.noOverlays s.Name p)) ∨
    (s.Rabbits ≠ [] ∧ s.computes.Nodup ∧ s.Aliases.Nodup ∧ s.Overlays ≠ [] ∧
        ¬ s.Overlays.Nodup ∧ ∃ o, scanKnown [] s.Overlays = .error o ∧
        s.Verify p = some (.dupOverlay o s.Name p)) ∨
    (s.Rabbits ≠ [] ∧ s.computes.Nodup ∧ s.Aliases.Nodup ∧ s.Overlays ≠ [] ∧
        s.Overlays.Nodup ∧ s.Workers = [] ∧ s.Verify p = some (.noWorkers s.Name p)) ∨
    (s.Rabbits ≠ [] ∧ s.computes.Nodup ∧ s.Aliases.Nodup ∧ s.Overlays ≠ [] ∧
        s.Overlays.Nodup ∧ s.Workers ≠ [] ∧ ¬ s.Workers.Nodup ∧ ∃ w, scanKnown [] s.Workers = .error w ∧
        s.Verify p = some (.dupWorker w s.Name p)) ∨
    (s.Rabbits ≠ [] ∧ s.computes.Nodup ∧ s.Aliases.Nodup ∧ s.Overlays ≠ [] ∧
        s.Overlays.Nodup ∧ s.Workers ≠ [] ∧ s.Workers.Nodup ∧ s.Verify p = none) := by
  unfold System.Verify
  by_cases hR : s.Rabbits = []
  · left
    exact ⟨hR, by simp [hR]⟩
  right
  rw [if_neg (by rwa [length_lt_one_iff])]
  rw [scanRabbits_eq]
  change _ ∨ _ ∨ _ ∨ _ ∨ _ ∨ _ ∨ _
  have hcomp : (s.Rabbits.map (fun rabbit => rabbit.2.map Prod.snd)).flatten = s.computes := rfl
  rw [hcomp]
  cases hC : scanKnown [] s.computes with
  | error c => left; exact ⟨hR, (scanKnown_nil_error_iff _).1 ⟨c, hC⟩, c, rfl, rfl⟩
  | ok kc =>
  right
  have hCn := (scanKnown_nil_ok_iff _).1 ⟨kc, hC⟩
  cases hA : scanKnown [] s.Aliases with
  | error a => left; exact ⟨hR, hCn, (scanKnown_nil_error_iff _).1 ⟨a, hA⟩, a, rfl, rfl⟩
  | ok ka =>
  right
  have hAn := (scanKnown_nil_ok_iff _).1 ⟨ka, hA⟩
  by_cases hO : s.Overlays = []
  · left
    exact ⟨hR, hCn, hAn, hO, by simp [hO]⟩
  right
  simp only [if_neg (show ¬ s.Overlays.length < 1 by rwa [length_lt_one_iff])]
  cases hOs : scanKnown [] s.Overlays with
  | error o => left; exact ⟨hR, hCn, hAn, hO, (scanKnown_nil_error_iff _).1 ⟨o, hOs⟩, o, rfl, rfl⟩
  | ok ko =>
  right
  have hOn := (scanKnown_nil_ok_iff _).1 ⟨ko, hOs⟩
  by_cases hW : s.Workers = []
  · left
    exact ⟨hR, hCn, hAn, hO, hOn, hW, by simp [hW]⟩
  right
  simp only [if_neg (show ¬ s.Workers.length < 1 by rwa [length_lt_one_iff])]
  cases hWs : scanKnown [] s.Workers with
  | error w => left; exact ⟨hR, hCn, hAn, hO, hOn, hW, (scanKnown_nil_error_iff _).1 ⟨w, hWs⟩, w, rfl, rfl⟩
  | ok kw =>
  right
  exact ⟨hR, hCn, hAn, hO, hOn, hW, (scanKnown_nil_ok_iff _).1 ⟨kw, hWs⟩, rfl⟩


theorem systemVerify_eq_none_iff (p : String) (s : System) :
    s.Verify p = none ↔
      s.Rabbits ≠ [] ∧ s.computes.Nodup ∧ s.Aliases.Nodup ∧ s.Overlays ≠ [] ∧
        s.Overlays.Nodup ∧ s.Workers ≠ [] ∧ s.Workers.Nodup := by
  rcases systemVerify_table p s with h | ⟨h1, h2, c, -, h⟩ | ⟨h1, h2, h3, a, -, h⟩ | h
      | ⟨h1, h2, h3, h4, h5, o, -, h⟩ | h | ⟨h1, h2, h3, h4, h5, h6, h7, w, -, h⟩ | h
  all_goals simp_all

theorem mentions_mid (a b c : String) : Mentions (a ++ b ++ c) b := by
  refine ⟨a.data, c.data, ?_⟩
  simp [String.data_append]

theorem mentions_mid_more (a b c d e : String) : Mentions (a ++ b ++ c ++ d ++ e) b := by
  refine ⟨a.data, (c ++ d ++ e).data, ?_⟩
  simp [String.data_append]

theorem systemVerify_mentions (p : String) (s : System) (e : GoError)
    (he : s.Verify p = some e) : Mentions e.Error s.Name ∧ Mentions e.Error p := by
  rcases systemVerify_table p s with ⟨-, h⟩ | ⟨-, -, c, -, h⟩ | ⟨-, -, -, a, -, h⟩
      | ⟨-, -, -, -, h⟩ | ⟨-, -, -, -, -, o, -, h⟩ | ⟨-, -, -, -, -, -, h⟩
      | ⟨-, -, -, -, -, -, -, w, -, h⟩ | ⟨-, -, -, -, -, -, -, h⟩
  on_goal 8 => rw [h] at he; cases he
  all_goals
    rw [h] at he
    cases he
    simp only [GoError.Error]
    exact ⟨mentions_mid_more _ _ _ _ _, mentions_mid _ _ _⟩

/-- C2. When `System.Verify` fails, it reports the first violated rule. -/
theorem System_Verify_reports_first_violation (p : String) (s : System) :
    ((∃ n q, s.Verify p = some (.noRabbits n q)) ↔ s.Rabbits = []) ∧
    ((∃ c n q, s.Verify p = some (.dupCompute c n q)) ↔
      s.Rabbits ≠ [] ∧ ¬ s.computes.Nodup) ∧
    ((∃ a n q, s.Verify p = some (.dupAliasSystem a n q)) ↔
      s.Rabbits ≠ [] ∧ s.computes.Nodup ∧ ¬ s.Aliases.Nodup) ∧
    ((∃ n q, s.Verify p = some (.noOverlays n q)) ↔
      s.Rabbits ≠ [] ∧ s.computes.Nodup ∧ s.Aliases.Nodup ∧ s.Overlays = []) ∧
    ((∃ o n q, s.Verify p = some (.dupOverlay o n q)) ↔
      s.Rabbits ≠ [] ∧ s.computes.Nodup ∧ s.Aliases.Nodup ∧ s.Overlays ≠ [] ∧
        ¬ s.Overlays.Nodup) ∧
    ((∃ n q, s.Verify p = some (.noWorkers n q)) ↔
      s.Rabbits ≠ [] ∧ s.computes.Nodup ∧ s.Aliases.Nodup ∧ s.Overlays ≠ [] ∧
        s.Overlays.Nodup ∧ s.Workers = []) ∧
    ((∃ w n q, s.Verify p = some (.dupWorker w n q)) ↔
      s.Rabbits ≠ [] ∧ s.computes.Nodup ∧ s.Aliases.Nodup ∧ s.Overlays ≠ [] ∧
        s.Overlays.Nodup ∧ s.Workers ≠ [] ∧ ¬ s.Workers.Nodup) ∧
    (s.Verify p = none ↔
      s.Rabbits ≠ [] ∧ s.computes.Nodup ∧ s.Aliases.Nodup ∧ s.Overlays ≠ [] ∧
        s.Overlays.Nodup ∧ s.Workers ≠ [] ∧ s.Workers.Nodup) ∧
    (∀ e, s.Verify p = some e → Mentions e.Error s.Name ∧ Mentions e.Error p) := by
  refine ⟨?_, ?_, ?_, ?_, ?_, ?_, ?_, ?_, systemVerify_mentions p s⟩
  all_goals
    rcases systemVerify_table p s with h | ⟨h1, h2, c, -, h⟩ | ⟨h1, h2, h3, a, -, h⟩ | h
      | ⟨h1, h2, h3, h4, h5, o, -, h⟩ | h | ⟨h1, h2, h3, h4, h5, h6, h7, w, -, h⟩ | h
    all_goals simp_all

theorem scanKnown_isOk_iff (known xs : List String) :
    (∃ known', scanKnown known xs = .ok known') ↔ xs.Nodup ∧ ∀ x ∈ xs, x ∉ known := by
  constructor
  · rintro ⟨k, hk⟩
    have := (scanKnown_ok_iff known xs k).1 hk
    exact ⟨this.1, this.2.1⟩
  · rintro ⟨h1, h2⟩
    exact ⟨_, (scanKnown_ok_iff known xs _).2 ⟨h1, h2, rfl⟩⟩

theorem verifySystems_eq_none_iff (p : String) (kn ka : List String) (l : List System) :
    verifySystems p kn ka l = none ↔
      (l.map System.Name).Nodup ∧ (∀ s ∈ l, s.Name ∉ kn) ∧
      (l.map System.Aliases).flatten.Nodup ∧ (∀ a ∈ (l.map System.Aliases).flatten, a ∉ ka) ∧
      ∀ s ∈ l, s.Verify p = none := by
  induction l generalizing kn ka with
  | nil => simp [verifySystems]
  | cons s rest ih =>
    rw [verifySystems]
    by_cases hn : s.Name ∈ kn
    · simp [hn]
    rw [if_neg hn]
    cases hA : scanKnown ka s.Aliases with
    | error a =>
      have hno : ¬ (s.Aliases.Nodup ∧ ∀ x ∈ s.Aliases, x ∉ ka) := by
        intro h
        obtain ⟨k, hk⟩ := (scanKnown_isOk_iff ka s.Aliases).2 h
        rw [hk] at hA
        cases hA
      simp only [reduceCtorEq, false_iff]
      rintro ⟨-, -, h3, h4, -⟩
      apply hno
      simp only [List.map_cons, List.flatten_cons, List.nodup_append, List.mem_append] at h3 h4
      exact ⟨h3.1, fun x hx => h4 x (Or.inl hx)⟩
    | ok ka' =>
      obtain ⟨hA1, hA2, rfl⟩ := (scanKnown_ok_iff ka s.Aliases ka').1 hA
      cases hV : s.Verify p with
      | some e =>
        simp only [reduceCtorEq, false_iff]
        rintro ⟨-, -, -, -, h5⟩
        have := h5 s (List.mem_cons_self _ _)
        rw [hV] at this
        cases this
      | none =>
        simp only [ih, List.map_cons, List.flatten_cons, List.nodup_cons, List.nodup_append,
          List.mem_cons, List.mem_append, List.mem_reverse, List.mem_map, not_or,
          forall_eq_or_imp, hV, true_and]
        constructor
        · rintro ⟨h1, h2, h3, h4, h5⟩
          refine ⟨⟨?_, h1⟩, ⟨hn, fun t ht => (h2 t ht).2⟩, ⟨hA1, h3, ?_⟩, ?_, h5⟩
          · rintro ⟨t, ht, hte⟩
            exact (h2 t ht).1 hte
          · intro x hx hx'
            exact (h4 x hx').1 hx
          · rintro x (hx | hx)
            · exact hA2 x hx
            · exact (h4 x hx).2
        · rintro ⟨⟨h0, h1⟩, ⟨-, h2⟩, ⟨-, h3, hd⟩, h4, h5⟩
          refine ⟨h1, fun t ht => ⟨fun hte => h0 ⟨t, ht, hte⟩, h2 t ht⟩, h3, ?_, h5⟩
          intro x hx
          exact ⟨fun hx' => hd hx' hx, h4 x (Or.inr hx)⟩

theorem fileVerify_aliases_nodup (p : String) (config : SystemConfigFile)
    (h : config.Verify p = none) : config.aliases.Nodup :=
  ((verifySystems_eq_none_iff p [] [] config.Systems).1 h).2.2.1

/-- C1. `SystemConfigFile.Verify` returns no error exactly for the files that
have no duplicate system name, no alias occurring twice in the file, and in
every system at least one rabbit, overlay and worker and no repeated overlay,
worker or compute-node name. -/
theorem SystemConfigFile_Verify_ok_iff (p : String) (config : SystemConfigFile) :
    config.Verify p = none ↔
      (config.Systems.map System.Name).Nodup ∧ config.aliases.Nodup ∧
      ∀ s ∈ config.Systems,
        s.Rabbits ≠ [] ∧ s.Overlays ≠ [] ∧ s.Workers ≠ [] ∧
        s.Overlays.Nodup ∧ s.Workers.Nodup ∧ s.computes.Nodup := by
  unfold SystemConfigFile.Verify SystemConfigFile.aliases
  rw [verifySystems_eq_none_iff]
  constructor
  · rintro ⟨h1, -, h3, -, h5⟩
    refine ⟨h1, h3, fun s hs => ?_⟩
    obtain ⟨a, b, -, c, d, e, f⟩ := (systemVerify_eq_none_iff p s).1 (h5 s hs)
    exact ⟨a, c, e, d, f, b⟩
  · rintro ⟨h1, h3, h5⟩
    refine ⟨h1, by simp, h3, by simp, fun s hs => ?_⟩
    obtain ⟨a, c, e, d, f, b⟩ := h5 s hs
    refine (systemVerify_eq_none_iff p s).2 ⟨a, b, ?_, c, d, e, f⟩
    have hsub : s.Aliases.Sublist (config.Systems.map System.Aliases).flatten :=
      List.sublist_flatten_of_mem (List.mem_map_of_mem _ hs)
    exact hsub.nodup h3

theorem count_le_count_flatten (a : String) (l : List String) (ls : List (List String))
    (h : l ∈ ls) : l.count a ≤ ls.flatten.count a := by
  exact (List.sublist_flatten_of_mem h).count_le a

/-- What an error of the loop of `SystemConfigFile.Verify` stands for, relative to
the names and aliases already seen. -/
theorem verifySystems_error (p : String) (kn ka : List String) (l : List System)
    (e : GoError) (h : verifySystems p kn ka l = some e) :
    (∃ n, e = .dupSystemName n p ∧
        ((n ∈ kn ∧ n ∈ l.map System.Name) ∨ 2 ≤ (l.map System.Name).count n)) ∨
    (∃ a, e = .dupAliasFile a p ∧
        ((a ∈ ka ∧ a ∈ (l.map System.Aliases).flatten) ∨
          2 ≤ (l.map System.Aliases).flatten.count a)) ∨
    (∃ s ∈ l, s.Verify p = some e) := by
  induction l generalizing kn ka with
  | nil => simp [verifySystems] at h
  | cons s rest ih =>
    rw [verifySystems] at h
    by_cases hn : s.Name ∈ kn
    · rw [if_pos hn] at h
      cases h
      exact Or.inl ⟨s.Name, rfl, Or.inl ⟨hn, by simp⟩⟩
    rw [if_neg hn] at h
    cases hA : scanKnown ka s.Aliases with
    | error a =>
      rw [hA] at h
      cases h
      obtain ⟨h1, h2⟩ := scanKnown_error_count ka s.Aliases a hA
      refine Or.inr (Or.inl ⟨a, rfl, ?_⟩)
      rcases h2 with h2 | h2
      · exact Or.inl ⟨h2, by simp [h1]⟩
      · right
        simp only [List.map_cons, List.flatten_cons, List.count_append]
        omega
    | ok ka' =>
      rw [hA] at h
      obtain ⟨-, -, rfl⟩ := (scanKnown_ok_iff ka s.Aliases ka').1 hA
      cases hV : s.Verify p with
      | some e' =>
        rw [hV] at h
        cases h
        exact Or.inr (Or.inr ⟨s, List.mem_cons_self _ _, hV⟩)
      | none =>
        rw [hV] at h
        rcases ih _ _ h with ⟨n, rfl, hn'⟩ | ⟨a, rfl, ha'⟩ | ⟨t, ht, hte⟩
        · refine Or.inl ⟨n, rfl, ?_⟩
          rcases hn' with ⟨hk, hm⟩ | hc
          · rcases List.mem_cons.1 hk with rfl | hk
            · right
              have : 1 ≤ (rest.map System.Name).count s.Name := List.count_pos_iff.2 hm
              simp only [List.map_cons, List.count_cons_self]
              omega
            · exact Or.inl ⟨hk, by simp only [List.map_cons]; exact List.mem_cons_of_mem _ hm⟩
          · right
            simp only [List.map_cons]
            exact le_trans hc (List.count_le_count_cons _ _ _)
        · refine Or.inr (Or.inl ⟨a, rfl, ?_⟩)
          simp only [List.map_cons, List.flatten_cons, List.count_append, List.mem_append]
          rcases ha' with ⟨hk, hm⟩ | hc
          · rcases List.mem_append.1 hk with hk | hk
            · right
              have h1 : 1 ≤ s.Aliases.count a := List.count_pos_iff.2 (List.mem_reverse.1 hk)
              have h2 : 1 ≤ (rest.map System.Aliases).flatten.count a := List.count_pos_iff.2 hm
              omega
            · exact Or.inl ⟨hk, Or.inr hm⟩
          · right
            omega
        · exact Or.inr (Or.inr ⟨t, List.mem_cons_of_mem _ ht, hte⟩)

/-- What an error of `System.Verify` stands for. -/
theorem systemVerify_error (p : String) (s : System) (e : GoError)
    (h : s.Verify p = some e) :
    (e = .noRabbits s.Name p ∧ s.Rabbits = []) ∨
    (∃ c, e = .dupCompute c s.Name p ∧ 2 ≤ s.computes.count c) ∨
    (∃ a, e = .dupAliasSystem a s.Name p ∧ 2 ≤ s.Aliases.count a) ∨
    (e = .noOverlays s.Name p ∧ s.Overlays = []) ∨
    (∃ o, e = .dupOverlay o s.Name p ∧ 2 ≤ s.Overlays.count o) ∨
    (e = .noWorkers s.Name p ∧ s.Workers = []) ∨
    (∃ w, e = .dupWorker w s.Name p ∧ 2 ≤ s.Workers.count w) := by
  have key : ∀ (xs : List String) (x : String), scanKnown [] xs = .error x → 2 ≤ xs.count x := by
    intro xs x hx
    rcases (scanKnown_error_count [] xs x hx).2 with h | h
    · simp at h
    · exact h
  rcases systemVerify_table p s with ⟨h1, h2⟩ | ⟨-, -, c, hc, h2⟩ | ⟨-, -, -, a, ha, h2⟩
      | ⟨-, -, -, h1, h2⟩ | ⟨-, -, -, -, -, o, ho, h2⟩ | ⟨-, -, -, -, -, h1, h2⟩
      | ⟨-, -, -, -, -, -, -, w, hw, h2⟩ | ⟨-, -, -, -, -, -, -, h2⟩
  all_goals
    rw [h2] at h
    cases h
  · exact Or.inl ⟨rfl, h1⟩
  · exact Or.inr (Or.inl ⟨c, rfl, key _ _ hc⟩)
  · exact Or.inr (Or.inr (Or.inl ⟨a, rfl, key _ _ ha⟩))
  · exact Or.inr (Or.inr (Or.inr (Or.inl ⟨rfl, h1⟩)))
  · exact Or.inr (Or.inr (Or.inr (Or.inr (Or.inl ⟨o, rfl, key _ _ ho⟩))))
  · exact Or.inr (Or.inr (Or.inr (Or.inr (Or.inr (Or.inl ⟨rfl, h1⟩)))))
  · exact Or.inr (Or.inr (Or.inr (Or.inr (Or.inr (Or.inr ⟨w, rfl, key _ _ hw⟩)))))

/-- C8. An error of `SystemConfigFile.Verify` names a real violation of the file:
a name borne by two systems, an alias occurring twice in the file, a value
occurring twice in the named system's collection, or a named system whose
collection is empty. -/
theorem SystemConfigFile_Verify_error_is_real (p : String) (config : SystemConfigFile)
    (e : GoError) (h : config.Verify p = some e) :
    match e with
    | .dupSystemName n _ => 2 ≤ (config.Systems.map System.Name).count n
    | .dupAliasFile a _ => 2 ≤ config.aliases.count a
    | .dupAliasSystem a n _ =>
        2 ≤ config.aliases.count a ∧ ∃ s ∈ config.Systems, s.Name = n ∧ 2 ≤ s.Aliases.count a
    | .dupCompute c n _ => ∃ s ∈ config.Systems, s.Name = n ∧ 2 ≤ s.computes.count c
    | .dupOverlay o n _ => ∃ s ∈ config.Systems, s.Name = n ∧ 2 ≤ s.Overlays.count o
    | .dupWorker w n _ => ∃ s ∈ config.Systems, s.Name = n ∧ 2 ≤ s.Workers.count w
    | .noRabbits n _ => ∃ s ∈ config.Systems, s.Name = n ∧ s.Rabbits = []
    | .noOverlays n _ => ∃ s ∈ config.Systems, s.Name = n ∧ s.Overlays = []
    | .noWorkers n _ => ∃ s ∈ config.Systems, s.Name = n ∧ s.Workers = []
    | _ => False := by
  rcases verifySystems_error p [] [] config.Systems e h with
    ⟨n, rfl, hn⟩ | ⟨a, rfl, ha⟩ | ⟨s, hs, hse⟩
  · rcases hn with ⟨hk, -⟩ | hc
    · simp at hk
    · exact hc
  · rcases ha with ⟨hk, -⟩ | hc
    · simp at hk
    · exact hc
  · rcases systemVerify_error p s e hse with ⟨rfl, h1⟩ | ⟨c, rfl, h1⟩ | ⟨a, rfl, h1⟩
      | ⟨rfl, h1⟩ | ⟨o, rfl, h1⟩ | ⟨rfl, h1⟩ | ⟨w, rfl, h1⟩
    · exact ⟨s, hs, rfl, h1⟩
    · exact ⟨s, hs, rfl, h1⟩
    · refine ⟨le_trans h1 ?_, s, hs, rfl, h1⟩
      exact count_le_count_flatten a s.Aliases _ (List.mem_map_of_mem _ hs)
    · exact ⟨s, hs, rfl, h1⟩
    · exact ⟨s, hs, rfl, h1⟩
    · exact ⟨s, hs, rfl, h1⟩
    · exact ⟨s, hs, rfl, h1⟩

theorem verifySystems_append (p : String) (kn ka : List String) (pre rest : List System)
    (h : verifySystems p kn ka pre = none) :
    verifySystems p kn ka (pre ++ rest) =
      verifySystems p ((pre.map System.Name).reverse ++ kn)
        ((pre.map System.Aliases).flatten.reverse ++ ka) rest := by
  induction pre generalizing kn ka with
  | nil => simp
  | cons s pre ih =>
    rw [verifySystems] at h
    rw [List.cons_append, verifySystems]
    by_cases hn : s.Name ∈ kn
    · rw [if_pos hn] at h
      cases h
    rw [if_neg hn] at h ⊢
    cases hA : scanKnown ka s.Aliases with
    | error a =>
      rw [hA] at h
      cases h
    | ok ka' =>
      rw [hA] at h
      obtain ⟨-, -, rfl⟩ := (scanKnown_ok_iff ka s.Aliases ka').1 hA
      cases hV : s.Verify p with
      | some e =>
        rw [hV] at h
        cases h
      | none =>
        rw [hV] at h
        simp only [ih _ _ h, List.map_cons, List.reverse_cons, List.flatten_cons,
          List.reverse_append, List.append_assoc, List.singleton_append]

theorem split_at_index {α : Type} (l : List α) (j : Nat) (y : α) (h : l[j]? = some y) :
    l = l.take j ++ y :: l.drop (j + 1) := by
  obtain ⟨hj, rfl⟩ := List.getElem?_eq_some.1 h
  rw [← List.drop_eq_getElem_cons hj, List.take_append_drop]

theorem mem_take_of_index {α : Type} (l : List α) (i j : Nat) (x : α) (hij : i < j)
    (h : l[i]? = some x) : x ∈ l.take j := by
  apply List.getElem?_mem
  rw [List.getElem?_take_of_lt hij]
  exact h

/-- C6, as the code has it. When a later system declares an alias `a` that an
earlier system declares too, `SystemConfigFile.Verify` fails; the error is the
file-wide duplicate-alias error citing `a` when the scan reaches that entry
without meeting a violation before it. -/
theorem SystemConfigFile_Verify_shared_alias (p : String) (config : SystemConfigFile)
    (a : String) (i j : Nat) (X Y : System) (hij : i < j)
    (hX : config.Systems[i]? = some X) (hY : config.Systems[j]? = some Y)
    (haX : a ∈ X.Aliases) (haY : a ∈ Y.Aliases) :
    config.Verify p ≠ none ∧
    ((∀ s ∈ config.Systems.take j, s.Verify p = none) →
      ((config.Systems.take (j + 1)).map System.Name).Nodup →
      ∀ l₁ l₂, Y.Aliases = l₁ ++ a :: l₂ →
        (((config.Systems.take j).map System.Aliases).flatten ++ l₁).Nodup →
        config.Verify p = some (.dupAliasFile a p)) := by
  have hsplit := split_at_index config.Systems j Y hY
  have hXmem : X ∈ config.Systems.take j := mem_take_of_index _ i j X hij hX
  have haPre : a ∈ ((config.Systems.take j).map System.Aliases).flatten :=
    List.mem_flatten.2 ⟨X.Aliases, List.mem_map_of_mem _ hXmem, haX⟩
  constructor
  · intro hnone
    have hnd := fileVerify_aliases_nodup p config hnone
    unfold SystemConfigFile.aliases at hnd
    rw [hsplit] at hnd
    simp only [List.map_append, List.map_cons, List.flatten_append, List.flatten_cons,
      List.nodup_append] at hnd
    exact hnd.2.2 haPre (List.mem_append_left _ haY)
  · intro hV hN l₁ l₂ hl hA
    have htake : config.Systems.take (j + 1) = config.Systems.take j ++ [Y] := by
      rw [List.take_succ, hY]; rfl
    rw [htake, List.map_append, List.nodup_append] at hN
    rw [List.nodup_append] at hA
    have hpre : verifySystems p [] [] (config.Systems.take j) = none :=
      (verifySystems_eq_none_iff p [] [] _).2 ⟨hN.1, by simp, hA.1, by simp, hV⟩
    unfold SystemConfigFile.Verify
    rw [hsplit, verifySystems_append p [] [] _ _ hpre, verifySystems]
    have hYn : Y.Name ∉ ((config.Systems.take j).map System.Name).reverse ++ [] := by
      intro hm
      rw [List.append_nil, List.mem_reverse] at hm
      exact hN.2.2 hm (by simp)
    rw [if_neg hYn]
    have hscan : scanKnown (((config.Systems.take j).map System.Aliases).flatten.reverse ++ [])
        Y.Aliases = .error a := by
      rw [scanKnown_error_iff]
      refine ⟨l₁, l₂, hl, hA.2.1, ?_, Or.inr (by simpa using haPre)⟩
      intro y hy hk
      rw [List.append_nil, List.mem_reverse] at hk
      exact hA.2.2 hk hy
    rw [hscan]

/-- C7. A system whose rabbits mapping is empty fails `System.Verify` with the
"no rabbit nodes declared" error for its name, whatever its other fields hold. -/
theorem System_Verify_no_rabbits (p : String) (s : System) (h : s.Rabbits = []) :
    ∃ e, s.Verify p = some e ∧
      e.Error = "no rabbit nodes declared for system '" ++ s.Name ++ "' in '" ++ p ++ "'" := by
  refine ⟨.noRabbits s.Name p, ?_, rfl⟩
  simp [System.Verify, h]

theorem ReadConfig_ok (w : World) (path p₀ content : String) (config : SystemConfigFile)
    (hread : w.ReadFile path = .ok content) (hdec : w.UnmarshalSystems content = .ok config)
    (hver : config.Verify path = none) : ReadConfig w path p₀ = (.ok config, path) := by
  simp [ReadConfig, hread, hdec, hver]

theorem FindSystem_ok (w : World) (name path p₀ content : String) (config : SystemConfigFile)
    (hread : w.ReadFile path = .ok content) (hdec : w.UnmarshalSystems content = .ok config)
    (hver : config.Verify path = none) :
    FindSystem w name path p₀ =
      match findSystemLoop name config.Systems with
      | some system => (.ok system, path)
      | none => (.error (.systemNotFound name), path) := by
  simp [FindSystem, ReadConfig_ok w path p₀ content config hread hdec hver]

theorem findSystemLoop_eq_none_iff (name : String) (l : List System) :
    findSystemLoop name l = none ↔ ∀ s ∈ l, s.Name ≠ name ∧ name ∉ s.Aliases := by
  induction l with
  | nil => simp [findSystemLoop]
  | cons s rest ih =>
    rw [findSystemLoop]
    by_cases h1 : s.Name = name
    · simp [h1]
    · rw [if_neg h1]
      by_cases h2 : name ∈ s.Aliases
      · have : s.Aliases.any (fun als => decide (als = name)) = true :=
          List.any_eq_true.2 ⟨name, h2, by simp⟩
        simp [this, h2]
      · have : ¬ s.Aliases.any (fun als => decide (als = name)) = true := by
          intro h
          obtain ⟨x, hx, hxe⟩ := List.any_eq_true.1 h
          exact h2 (by simpa using (of_decide_eq_true hxe) ▸ hx)
        rw [if_neg this, ih]
        simp [h1, h2]

theorem findSystemLoop_eq_some (name : String) (l : List System) (s : System)
    (h : findSystemLoop name l = some s) :
    ∃ i : Nat, l[i]? = some s ∧ (s.Name = name ∨ name ∈ s.Aliases) ∧
      ∀ (j : Nat) (t : System), j < i → l[j]? = some t → ¬ (t.Name = name ∨ name ∈ t.Aliases) := by
  induction l with
  | nil => simp [findSystemLoop] at h
  | cons x rest ih =>
    by_cases hx : x.Name = name ∨ name ∈ x.Aliases
    · have hnone : findSystemLoop name [x] ≠ none := by
        intro hn
        have := (findSystemLoop_eq_none_iff name [x]).1 hn x (by simp)
        rcases hx with hx | hx
        · exact this.1 hx
        · exact this.2 hx
      have hxs : findSystemLoop name (x :: rest) = some x := by
        rw [findSystemLoop] at hnone ⊢
        by_cases h1 : x.Name = name
        · simp [h1]
        · rw [if_neg h1] at hnone ⊢
          by_cases h2 : x.Aliases.any (fun als => decide (als = name)) = true
          · rw [if_pos h2]
          · rw [if_neg h2] at hnone
            exact absurd rfl hnone
      rw [hxs] at h
      cases h
      exact ⟨0, by simp, hx, fun j t hj => absurd hj (Nat.not_lt_zero j)⟩
    · have hn := (findSystemLoop_eq_none_iff name [x]).2 (by
        intro s hs
        rw [List.mem_singleton] at hs
        subst hs
        exact ⟨fun h => hx (Or.inl h), fun h => hx (Or.inr h)⟩)
      have hrest : findSystemLoop name (x :: rest) = findSystemLoop name rest := by
        rw [findSystemLoop] at hn ⊢
        by_cases h1 : x.Name = name
        · exact absurd (Or.inl h1) hx
        · rw [if_neg h1] at hn ⊢
          by_cases h2 : x.Aliases.any (fun als => decide (als = name)) = true
          · rw [if_pos h2] at hn
            cases hn
          · rw [if_neg h2]
      rw [hrest] at h
      obtain ⟨i, hi, hm, hfirst⟩ := ih h
      refine ⟨i + 1, by simpa using hi, hm, ?_⟩
      intro j t hj hjt
      cases j with
      | zero =>
        simp only [List.getElem?_cons_zero, Option.some.injEq] at hjt
        exact hjt ▸ hx
      | succ j =>
        simp only [List.getElem?_cons_succ] at hjt
        exact hfirst j t (Nat.lt_of_succ_lt_succ hj) hjt

theorem findSystem_first_match_core (w : World) (name path p₀ content : String)
    (config : SystemConfigFile)
    (hread : w.ReadFile path = .ok content) (hdec : w.UnmarshalSystems content = .ok config)
    (hver : config.Verify path = none)
    (hex : ∃ s ∈ config.Systems, s.Name = name ∨ name ∈ s.Aliases) :
    ∃ (i : Nat) (s : System), config.Systems[i]? = some s ∧
      (FindSystem w name path p₀).1 = .ok s ∧
      (s.Name = name ∨ name ∈ s.Aliases) ∧
      ∀ (j : Nat) (t : System), j < i → config.Systems[j]? = some t → ¬ (t.Name = name ∨ name ∈ t.Aliases) := by
  rw [FindSystem_ok w name path p₀ content config hread hdec hver]
  cases hf : findSystemLoop name config.Systems with
  | none =>
    obtain ⟨s, hs, hm⟩ := hex
    have := (findSystemLoop_eq_none_iff name config.Systems).1 hf s hs
    rcases hm with hm | hm
    · exact absurd hm this.1
    · exact absurd hm this.2
  | some s =>
    obtain ⟨i, hi, hm, hfirst⟩ := findSystemLoop_eq_some name config.Systems s hf
    exact ⟨i, s, hi, rfl, hm, hfirst⟩

/-- C3. On a file that is read, decoded and verified, a query matched by some
system's name or alias returns the first matching system of the file. -/
theorem FindSystem_returns_first_match (w : World) (name path p₀ content : String)
    (config : SystemConfigFile)
    (hread : w.ReadFile path = .ok content) (hdec : w.UnmarshalSystems content = .ok config)
    (hver : config.Verify path = none)
    (hex : ∃ s ∈ config.Systems, s.Name = name ∨ name ∈ s.Aliases) :
    ∃ (i : Nat) (s : System), config.Systems[i]? = some s ∧
      (FindSystem w name path p₀).1 = .ok s ∧
      (s.Name = name ∨ name ∈ s.Aliases) ∧
      ∀ (j : Nat) (t : System), j < i → config.Systems[j]? = some t → ¬ (t.Name = name ∨ name ∈ t.Aliases) :=
  findSystem_first_match_core w name path p₀ content config hread hdec hver hex

theorem alias_owner_unique (l : List System) (X Y : System) (a : String)
    (hnd : (l.map System.Aliases).flatten.Nodup) (hX : X ∈ l) (hY : Y ∈ l)
    (haX : a ∈ X.Aliases) (haY : a ∈ Y.Aliases) : X = Y := by
  induction l with
  | nil => simp at hX
  | cons s rest ih =>
    simp only [List.map_cons, List.flatten_cons, List.nodup_append] at hnd
    obtain ⟨-, hrest, hdisj⟩ := hnd
    have inRest : ∀ Z ∈ rest, a ∈ Z.Aliases → a ∈ (rest.map System.Aliases).flatten :=
      fun Z hZ ha => List.mem_flatten.2 ⟨Z.Aliases, List.mem_map_of_mem _ hZ, ha⟩
    rcases List.mem_cons.1 hX with rfl | hX' <;> rcases List.mem_cons.1 hY with rfl | hY'
    · rfl
    · exact absurd (inRest Y hY' haY) (fun h => hdisj haX h)
    · exact absurd (inRest X hX' haX) (fun h => hdisj haY h)
    · exact ih hrest hX' hY'

/-- C4. On a verified file, a query that is an alias of a system `X` and the
name of no system returns `X`. -/
theorem FindSystem_by_alias (w : World) (name path p₀ content : String)
    (config : SystemConfigFile) (X : System)
    (hread : w.ReadFile path = .ok content) (hdec : w.UnmarshalSystems content = .ok config)
    (hver : config.Verify path = none)
    (hX : X ∈ config.Systems) (ha : name ∈ X.Aliases)
    (hname : ∀ s ∈ config.Systems, s.Name ≠ name) :
    (FindSystem w name path p₀).1 = .ok X := by
  obtain ⟨i, s, hi, hres, hm, -⟩ := findSystem_first_match_core w name path p₀ content
    config hread hdec hver ⟨X, hX, Or.inr ha⟩
  have hs : s ∈ config.Systems := List.getElem?_mem hi
  have hsa : name ∈ s.Aliases := by
    rcases hm with hm | hm
    · exact absurd hm (hname s hs)
    · exact hm
  have hnd := fileVerify_aliases_nodup path config hver
  rw [hres, alias_owner_unique config.Systems s X name hnd hs hX hsa ha]

/-- C5. On a file that is read, decoded and verified, `FindSystem` fails with the
not-found error exactly when no system has the queried name or alias; the
error then cites the query. -/
theorem FindSystem_not_found_iff (w : World) (name path p₀ content : String)
    (config : SystemConfigFile)
    (hread : w.ReadFile path = .ok content) (hdec : w.UnmarshalSystems content = .ok config)
    (hver : config.Verify path = none) :
    ((∃ q, (FindSystem w name path p₀).1 = .error (.systemNotFound q)) ↔
      ∀ s ∈ config.Systems, s.Name ≠ name ∧ name ∉ s.Aliases) ∧
    ((∀ s ∈ config.Systems, s.Name ≠ name ∧ name ∉ s.Aliases) →
      (FindSystem w name path p₀).1 = .error (.systemNotFound name) ∧
      Mentions (GoError.systemNotFound name).Error name) := by
  rw [FindSystem_ok w name path p₀ content config hread hdec hver]
  cases hf : findSystemLoop name config.Systems with
  | none =>
    have hno := (findSystemLoop_eq_none_iff name config.Systems).1 hf
    refine ⟨⟨fun _ => hno, fun _ => ⟨name, rfl⟩⟩, fun _ => ⟨rfl, ?_⟩⟩
    simp only [GoError.Error]
    exact mentions_mid _ _ _
  | some s =>
    have hne : ¬ ∀ s ∈ config.Systems, s.Name ≠ name ∧ name ∉ s.Aliases := by
      intro h
      rw [(findSystemLoop_eq_none_iff name config.Systems).2 h] at hf
      cases hf
    refine ⟨⟨?_, fun h => absurd h hne⟩, fun h => absurd h hne⟩
    rintro ⟨q, hq⟩
    cases hq

theorem enumerateLoop_traced {σ : Type} (handleFn : Daemon → σ → Option GoError × σ)
    (ds : List Daemon) (s : σ) (log₀ : List (Daemon × Option GoError)) :
    ∃ calls, (enumerateLoop (traced handleFn) ds (s, log₀)).2.2 = log₀ ++ calls ∧
      calls.map Prod.fst <+: ds ∧
      match (enumerateLoop (traced handleFn) ds (s, log₀)).1 with
      | none => calls.map Prod.fst = ds ∧ ∀ c ∈ calls, c.2 = none
      | some err => ∃ pre d, calls = pre ++ [(d, some err)] ∧ ∀ c ∈ pre, c.2 = none := by
  induction ds generalizing s log₀ with
  | nil => exact ⟨[], by simp [enumerateLoop]⟩
  | cons d rest ih =>
    cases hh : (handleFn d s).1 with
    | some err =>
      refine ⟨[(d, some err)], ?_, ?_, ?_⟩
      · simp [enumerateLoop, traced, hh]
      · exact ⟨rest, rfl⟩
      · have : (enumerateLoop (traced handleFn) (d :: rest) (s, log₀)).1 = some err := by
          simp [enumerateLoop, traced, hh]
        rw [this]
        exact ⟨[], d, rfl, by simp⟩
    | none =>
      have hstep : enumerateLoop (traced handleFn) (d :: rest) (s, log₀) =
          enumerateLoop (traced handleFn) rest ((handleFn d s).2, log₀ ++ [(d, none)]) := by
        simp [enumerateLoop, traced, hh]
      obtain ⟨calls, h1, h2, h3⟩ := ih (handleFn d s).2 (log₀ ++ [(d, none)])
      rw [hstep]
      refine ⟨(d, none) :: calls, by simp [h1], ?_, ?_⟩
      · simpa using (List.prefix_cons_inj d).2 h2
      · revert h3
        cases (enumerateLoop (traced handleFn) rest ((handleFn d s).2, log₀ ++ [(d, none)])).1 with
        | none =>
          rintro ⟨h3, h4⟩
          exact ⟨by simp [h3], by simpa using h4⟩
        | some err =>
          rintro ⟨pre, d', h3, h4⟩
          exact ⟨(d, none) :: pre, d', by simp [h3], by simpa using h4⟩

/-- C9. `EnumerateDaemons` calls the handler on the daemons in file order, each
at most once; it stops at the first call that fails and returns that error,
and returns no error after calling it on every daemon when no call fails. -/
theorem EnumerateDaemons_calls {σ : Type} (w : World) (path content : String)
    (config : DaemonConfigFile) (handleFn : Daemon → σ → Option GoError × σ) (s : σ)
    (hread : w.ReadFile path = .ok content) (hdec : w.UnmarshalDaemons content = .ok config) :
    (EnumerateDaemons w path (traced handleFn) (s, [])).2.2.map Prod.fst <+: config.Daemons ∧
    match (EnumerateDaemons w path (traced handleFn) (s, [])).1 with
    | none =>
        (EnumerateDaemons w path (traced handleFn) (s, [])).2.2.map Prod.fst = config.Daemons ∧
        ∀ c ∈ (EnumerateDaemons w path (traced handleFn) (s, [])).2.2, c.2 = none
    | some err =>
        ∃ pre d, (EnumerateDaemons w path (traced handleFn) (s, [])).2.2 = pre ++ [(d, some err)] ∧
          ∀ c ∈ pre, c.2 = none := by
  have hE : EnumerateDaemons w path (traced handleFn) (s, [])
      = enumerateLoop (traced handleFn) config.Daemons (s, []) := by
    simp [EnumerateDaemons, hread, hdec]
  rw [hE]
  obtain ⟨calls, h1, h2, h3⟩ := enumerateLoop_traced handleFn config.Daemons s []
  rw [List.nil_append] at h1
  rw [h1]
  exact ⟨h2, h3⟩

theorem findRepositoryLoop_eq_none_iff (module : String) (l : List Repository) :
    findRepositoryLoop module l = none ↔ ∀ r ∈ l, r.Name ≠ module := by
  induction l with
  | nil => simp [findRepositoryLoop]
  | cons r rest ih =>
    rw [findRepositoryLoop]
    by_cases h : module = r.Name
    · simp [h]
    · rw [if_neg h, ih]
      simp [Ne.symm h]

theorem findRepositoryLoop_eq_some (module : String) (l : List Repository) (r : Repository)
    (h : findRepositoryLoop module l = some r) :
    ∃ i : Nat, l[i]? = some r ∧ r.Name = module ∧
      ∀ (j : Nat) (t : Repository), j < i → l[j]? = some t → t.Name ≠ module := by
  induction l with
  | nil => simp [findRepositoryLoop] at h
  | cons x rest ih =>
    rw [findRepositoryLoop] at h
    by_cases hx : module = x.Name
    · rw [if_pos hx] at h
      cases h
      exact ⟨0, by simp, hx.symm, fun j t hj => absurd hj (Nat.not_lt_zero j)⟩
    · rw [if_neg hx] at h
      obtain ⟨i, hi, hm, hfirst⟩ := ih h
      refine ⟨i + 1, by simpa using hi, hm, ?_⟩
      intro j t hj hjt
      cases j with
      | zero =>
        simp only [List.getElem?_cons_zero, Option.some.injEq] at hjt
        exact hjt ▸ Ne.symm hx
      | succ j =>
        simp only [List.getElem?_cons_succ] at hjt
        exact hfirst j t (Nat.lt_of_succ_lt_succ hj) hjt

/-- C10. On a loaded repository file, `FindRepository` returns the first
repository named `module` with the file's build configuration, and when no
repository bears that name it returns nothing but a not-found error citing
`module`. -/
theorem FindRepository_first_match (w : World) (path module : String)
    (config : RepositoryConfigFile) (hload : readConfigFile w path = .ok config) :
    ((∃ r ∈ config.Repositories, r.Name = module) →
      ∃ (i : Nat) (r : Repository), config.Repositories[i]? = some r ∧ r.Name = module ∧
        (∀ (j : Nat) (t : Repository), j < i → config.Repositories[j]? = some t →
          t.Name ≠ module) ∧
        FindRepository w path module = (some r, some config.BuildConfig, none)) ∧
    ((∀ r ∈ config.Repositories, r.Name ≠ module) →
      FindRepository w path module = (none, none, some (.repositoryNotFound module)) ∧
      Mentions (GoError.repositoryNotFound module).Error module) := by
  have hF : FindRepository w path module =
      match findRepositoryLoop module config.Repositories with
      | some repository => (some repository, some config.BuildConfig, none)
      | none => (none, none, some (.repositoryNotFound module)) := by
    simp [FindRepository, hload]
  rw [hF]
  constructor
  · rintro ⟨r, hr, hrn⟩
    cases hf : findRepositoryLoop module config.Repositories with
    | none =>
      exact absurd hrn ((findRepositoryLoop_eq_none_iff module _).1 hf r hr)
    | some r' =>
      obtain ⟨i, hi, hm, hfirst⟩ := findRepositoryLoop_eq_some module _ r' hf
      exact ⟨i, r', hi, hm, hfirst, rfl⟩
  · intro hno
    rw [(findRepositoryLoop_eq_none_iff module _).2 hno]
    refine ⟨rfl, ?_⟩
    simp only [GoError.Error]
    exact mentions_mid _ _ _

/-! ## The claims at sample inputs -/

theorem FindSystem_returns_first_match_witness :
    ∃ (i : Nat) (s : System), sampleSystems.Systems[i]? = some s ∧
      (FindSystem (sampleWorld sampleSystems) "nodeB" "systems.yaml" "").1 = .ok s ∧
      (s.Name = "nodeB" ∨ "nodeB" ∈ s.Aliases) ∧
      ∀ (j : Nat) (t : System), j < i → sampleSystems.Systems[j]? = some t →
        ¬ (t.Name = "nodeB" ∨ "nodeB" ∈ t.Aliases) :=
  FindSystem_returns_first_match (sampleWorld sampleSystems) "nodeB" "systems.yaml" ""
    "systems.yaml" sampleSystems rfl rfl (by decide)
    ⟨sampleSystem "clusterX" ["nodeA", "nodeB"], by decide, by decide⟩

theorem FindSystem_by_alias_witness :
    (FindSystem (sampleWorld sampleSystems) "nodeB" "systems.yaml" "").1
      = .ok (sampleSystem "clusterX" ["nodeA", "nodeB"]) :=
  FindSystem_by_alias (sampleWorld sampleSystems) "nodeB" "systems.yaml" ""
    "systems.yaml" sampleSystems (sampleSystem "clusterX" ["nodeA", "nodeB"])
    rfl rfl (by decide) (by decide) (by decide) (by decide)

theorem FindSystem_not_found_iff_witness :
    (FindSystem (sampleWorld sampleSystems) "unknown" "systems.yaml" "").1
        = .error (.systemNotFound "unknown") ∧
      Mentions (GoError.systemNotFound "unknown").Error "unknown" :=
  (FindSystem_not_found_iff (sampleWorld sampleSystems) "unknown" "systems.yaml" ""
    "systems.yaml" sampleSystems rfl rfl (by decide)).2 (by decide)

theorem SystemConfigFile_Verify_shared_alias_counterexample :
    bareSharedAliasSystems.Systems[0]? = some (bareSystem "clusterX" ["a1"]) ∧
    bareSharedAliasSystems.Systems[1]? = some (sampleSystem "clusterY" ["a1"]) ∧
    "a1" ∈ (bareSystem "clusterX" ["a1"]).Aliases ∧
    "a1" ∈ (sampleSystem "clusterY" ["a1"]).Aliases ∧
    bareSharedAliasSystems.Verify "systems.yaml" = some (.noRabbits "clusterX" "systems.yaml") ∧
    ∀ q, bareSharedAliasSystems.Verify "systems.yaml" ≠ some (.dupAliasFile "a1" q) := by
  refine ⟨rfl, rfl, by decide, by decide, by decide, ?_⟩
  intro q h
  have h' : bareSharedAliasSystems.Verify "systems.yaml"
      = some (.noRabbits "clusterX" "systems.yaml") := by decide
  rw [h'] at h
  cases h

theorem SystemConfigFile_Verify_shared_alias_witness :
    sharedAliasSystems.Verify "systems.yaml" ≠ none ∧
    sharedAliasSystems.Verify "systems.yaml" = some (.dupAliasFile "a1" "systems.yaml") :=
  have h := SystemConfigFile_Verify_shared_alias "systems.yaml" sharedAliasSystems "a1" 0 1
    (sampleSystem "clusterX" ["a1"]) (sampleSystem "clusterY" ["a2", "a1"])
    (by decide) rfl rfl (by decide) (by decide)
  ⟨h.1, h.2 (by decide) (by decide) ["a2"] [] rfl (by decide)⟩

theorem System_Verify_no_rabbits_witness :
    ∃ e, (bareSystem "clusterX" ["a1"]).Verify "systems.yaml" = some e ∧
      e.Error = "no rabbit nodes declared for system '" ++ (bareSystem "clusterX" ["a1"]).Name
        ++ "' in '" ++ "systems.yaml" ++ "'" :=
  System_Verify_no_rabbits "systems.yaml" (bareSystem "clusterX" ["a1"]) rfl

theorem SystemConfigFile_Verify_error_is_real_witness :
    bareSharedAliasSystems.Verify "systems.yaml" = some (.noRabbits "clusterX" "systems.yaml") ∧
    ∃ s ∈ bareSharedAliasSystems.Systems, s.Name = "clusterX" ∧ s.Rabbits = [] :=
  ⟨by decide,
    SystemConfigFile_Verify_error_is_real "systems.yaml" bareSharedAliasSystems
      (.noRabbits "clusterX" "systems.yaml") (by decide)⟩

theorem EnumerateDaemons_calls_witness :
    EnumerateDaemons (sampleWorld sampleSystems) "daemons.yaml" (traced sampleHandler) (0, [])
      = (some (.external "build failed"),
          (2, [(sampleDaemon "d1", none),
               (sampleDaemon "d2", some (.external "build failed"))])) ∧
    (EnumerateDaemons (sampleWorld sampleSystems) "daemons.yaml" (traced sampleHandler)
        (0, [])).2.2.map Prod.fst <+: sampleDaemons.Daemons ∧
    match (EnumerateDaemons (sampleWorld sampleSystems) "daemons.yaml" (traced sampleHandler)
        (0, [])).1 with
    | none =>
        (EnumerateDaemons (sampleWorld sampleSystems) "daemons.yaml" (traced sampleHandler)
          (0, [])).2.2.map Prod.fst = sampleDaemons.Daemons ∧
        ∀ c ∈ (EnumerateDaemons (sampleWorld sampleSystems) "daemons.yaml"
          (traced sampleHandler) (0, [])).2.2, c.2 = none
    | some err =>
        ∃ pre d, (EnumerateDaemons (sampleWorld sampleSystems) "daemons.yaml"
            (traced sampleHandler) (0, [])).2.2 = pre ++ [(d, some err)] ∧
          ∀ c ∈ pre, c.2 = none :=
  ⟨by decide,
    EnumerateDaemons_calls (sampleWorld sampleSystems) "daemons.yaml" "daemons.yaml"
      sampleDaemons sampleHandler 0 rfl rfl⟩

theorem FindRepository_first_match_witness :
    ∃ (i : Nat) (r : Repository), sampleRepositories.Repositories[i]? = some r ∧
      r.Name = "repoA" ∧
      (∀ (j : Nat) (t : Repository), j < i → sampleRepositories.Repositories[j]? = some t →
        t.Name ≠ "repoA") ∧
      FindRepository (sampleWorld sampleSystems) "repositories.yaml" "repoA"
        = (some r, some sampleRepositories.BuildConfig, none) :=
  (FindRepository_first_match (sampleWorld sampleSystems) "repositories.yaml" "repoA"
    sampleRepositories rfl).1 ⟨sampleRepository "repoA" "first", by decide, rfl⟩

/-! ## Loading: fallback, propagation and the recorded path -/

/-- C11, as the code has it. `readConfigFile` decodes the content read at the
path when that read succeeds, and the content read one directory up when only
that read succeeds: it succeeds when that content decodes and fails with the
decode error when it does not. When both reads fail it fails with the error of
the second read. -/
theorem readConfigFile_fallback (w : World) (path : String) :
    (∀ content, w.ReadFile path = .ok content →
      readConfigFile w path = w.UnmarshalRepositories content ∧
      (∀ config, w.UnmarshalRepositories content = .ok config →
        readConfigFile w path = .ok config) ∧
      (∀ cause, w.UnmarshalRepositories content = .error cause →
        readConfigFile w path = .error cause)) ∧
    (∀ err content, w.ReadFile path = .error err →
      w.ReadFile (w.Join ".." path) = .ok content →
      readConfigFile w path = w.UnmarshalRepositories content ∧
      (∀ config, w.UnmarshalRepositories content = .ok config →
        readConfigFile w path = .ok config) ∧
      (∀ cause, w.UnmarshalRepositories content = .error cause →
        readConfigFile w path = .error cause)) ∧
    (∀ err₁ err₂, w.ReadFile path = .error err₁ →
      w.ReadFile (w.Join ".." path) = .error err₂ →
      readConfigFile w path = .error err₂) := by
  refine ⟨?_, ?_, ?_⟩
  · intro content h
    have : readConfigFile w path = w.UnmarshalRepositories content := by
      simp [readConfigFile, h]
    exact ⟨this, fun config hc => this.trans hc, fun cause hc => this.trans hc⟩
  · intro err content h₁ h₂
    have : readConfigFile w path = w.UnmarshalRepositories content := by
      simp [readConfigFile, h₁, h₂]
    exact ⟨this, fun config hc => this.trans hc, fun cause hc => this.trans hc⟩
  · intro err₁ err₂ h₁ h₂
    simp [readConfigFile, h₁, h₂]

/-- C12. On a loaded repository file `GetThirdPartyServices` returns the
file's third-party services as they stand. -/
theorem GetThirdPartyServices_all (w : World) (path : String) (config : RepositoryConfigFile)
    (hload : readConfigFile w path = .ok config) :
    GetThirdPartyServices w path = .ok config.ThirdPartyServices ∧
    ∀ services, GetThirdPartyServices w path = .ok services →
      services.length = config.ThirdPartyServices.length ∧
      ∀ (i : Nat), services[i]? = config.ThirdPartyServices[i]? := by
  have h : GetThirdPartyServices w path = .ok config.ThirdPartyServices := by
    simp [GetThirdPartyServices, hload]
  refine ⟨h, ?_⟩
  intro services hs
  rw [h] at hs
  cases hs
  exact ⟨rfl, fun _ => rfl⟩

/-- C13, as the code has it. `FindSystem` wraps the cause of a failed read or
decode behind a context text; `FindRepository`, `GetThirdPartyServices` and
`EnumerateDaemons` return the cause itself. -/
theorem load_error_propagation (σ : Type) (w : World) (path : String) :
    (∀ name p₀ cause, w.ReadFile path = .error cause →
      (FindSystem w name path p₀).1 = .error (.couldNotRead cause) ∧
      (GoError.couldNotRead cause).Error = "could not read system config: " ++ cause.Error) ∧
    (∀ name p₀ content cause, w.ReadFile path = .ok content →
      w.UnmarshalSystems content = .error cause →
      (FindSystem w name path p₀).1 = .error (.invalidYaml cause) ∧
      (GoError.invalidYaml cause).Error = "invalid system config yaml: " ++ cause.Error) ∧
    (∀ module err cause, w.ReadFile path = .error err →
      w.ReadFile (w.Join ".." path) = .error cause →
      FindRepository w path module = (none, none, some cause) ∧
      GetThirdPartyServices w path = .error cause) ∧
    (∀ module content cause,
      (w.ReadFile path = .ok content ∨
        ∃ err, w.ReadFile path = .error err ∧ w.ReadFile (w.Join ".." path) = .ok content) →
      w.UnmarshalRepositories content = .error cause →
      FindRepository w path module = (none, none, some cause) ∧
      GetThirdPartyServices w path = .error cause) ∧
    (∀ (handleFn : Daemon → σ → Option GoError × σ) s cause,
      w.ReadFile path = .error cause →
      EnumerateDaemons w path handleFn s = (some cause, s)) ∧
    (∀ (handleFn : Daemon → σ → Option GoError × σ) s content cause,
      w.ReadFile path = .ok content → w.UnmarshalDaemons content = .error cause →
      EnumerateDaemons w path handleFn s = (some cause, s)) := by
  refine ⟨?_, ?_, ?_, ?_, ?_, ?_⟩
  · intro name p₀ cause h
    exact ⟨by simp [FindSystem, ReadConfig, h], rfl⟩
  · intro name p₀ content cause h₁ h₂
    exact ⟨by simp [FindSystem, ReadConfig, h₁, h₂], rfl⟩
  · intro module err cause h₁ h₂
    have h : readConfigFile w path = .error cause := by simp [readConfigFile, h₁, h₂]
    exact ⟨by simp [FindRepository, h], by simp [GetThirdPartyServices, h]⟩
  · intro module content cause hr hd
    have h : readConfigFile w path = .error cause := by
      rcases hr with h₁ | ⟨err, h₁, h₂⟩
      · simp [readConfigFile, h₁, hd]
      · simp [readConfigFile, h₁, h₂, hd]
    exact ⟨by simp [FindRepository, h], by simp [GetThirdPartyServices, h]⟩
  · intro handleFn s cause h
    simp [EnumerateDaemons, h]
  · intro handleFn s content cause h₁ h₂
    simp [EnumerateDaemons, h₁, h₂]

/-- C15, as the code has it. `ReadConfig` records the path once the file is
read and decoded, whether or not verification then succeeds; when the read or
the decode fails the recorded path keeps its earlier value. -/
theorem ReadConfig_recorded_path (w : World) (path p₀ : String) :
    (∀ content config, w.ReadFile path = .ok content →
      w.UnmarshalSystems content = .ok config → (ReadConfig w path p₀).2 = path) ∧
    (∀ cause, w.ReadFile path = .error cause → (ReadConfig w path p₀).2 = p₀) ∧
    (∀ content cause, w.ReadFile path = .ok content →
      w.UnmarshalSystems content = .error cause → (ReadConfig w path p₀).2 = p₀) := by
  refine ⟨?_, ?_, ?_⟩
  · intro content config h₁ h₂
    cases hv : config.Verify path <;> simp [ReadConfig, h₁, h₂, hv]
  · intro cause h
    simp [ReadConfig, h]
  · intro content cause h₁ h₂
    simp [ReadConfig, h₁, h₂]

/-! ## Messages of `FindSystem` and the alias checks -/

theorem mentions_first7 (a b c d e f g : String) :
    Mentions (a ++ b ++ c ++ d ++ e ++ f ++ g) b := by
  refine ⟨a.data, (c ++ d ++ e ++ f ++ g).data, ?_⟩
  simp [String.data_append]

theorem mentions_of_suffix (a b x : String) (h : Mentions b x) : Mentions (a ++ b) x := by
  unfold Mentions at h ⊢
  rw [String.data_append]
  exact h.trans (List.suffix_append a.data b.data).isInfix

/-- The forms an error of `SystemConfigFile.Verify` takes: each one carries the
path the method was given. -/
theorem fileVerify_error_form (p : String) (config : SystemConfigFile) (v : GoError)
    (h : config.Verify p = some v) :
    (∃ n, v = .dupSystemName n p) ∨ (∃ a, v = .dupAliasFile a p) ∨
    (∃ n, v = .noRabbits n p) ∨ (∃ c n, v = .dupCompute c n p) ∨
    (∃ a n, v = .dupAliasSystem a n p) ∨ (∃ n, v = .noOverlays n p) ∨
    (∃ o n, v = .dupOverlay o n p) ∨ (∃ n, v = .noWorkers n p) ∨
    (∃ x n, v = .dupWorker x n p) := by
  rcases verifySystems_error p [] [] config.Systems v h with
    ⟨n, rfl, -⟩ | ⟨a, rfl, -⟩ | ⟨s, -, hs⟩
  · exact Or.inl ⟨n, rfl⟩
  · exact Or.inr (Or.inl ⟨a, rfl⟩)
  · rcases systemVerify_error p s v hs with ⟨rfl, -⟩ | ⟨c, rfl, -⟩ | ⟨a, rfl, -⟩
      | ⟨rfl, -⟩ | ⟨o, rfl, -⟩ | ⟨rfl, -⟩ | ⟨x, rfl, -⟩
    · exact Or.inr (Or.inr (Or.inl ⟨_, rfl⟩))
    · exact Or.inr (Or.inr (Or.inr (Or.inl ⟨_, _, rfl⟩)))
    · exact Or.inr (Or.inr (Or.inr (Or.inr (Or.inl ⟨_, _, rfl⟩))))
    · exact Or.inr (Or.inr (Or.inr (Or.inr (Or.inr (Or.inl ⟨_, rfl⟩)))))
    · exact Or.inr (Or.inr (Or.inr (Or.inr (Or.inr (Or.inr (Or.inl ⟨_, _, rfl⟩))))))
    · exact Or.inr (Or.inr (Or.inr (Or.inr (Or.inr (Or.inr (Or.inr (Or.inl ⟨_, rfl⟩)))))))
    · exact Or.inr (Or.inr (Or.inr (Or.inr (Or.inr (Or.inr (Or.inr (Or.inr ⟨_, _, rfl⟩)))))))

/-- C14, as the code has it. On a file that is read and decoded, a validation
error of `FindSystem` has a message containing the path of the call and the
values it cites; the not-found error has a message containing the queried
name. -/
theorem FindSystem_error_messages (w : World) (name path p₀ content : String)
    (config : SystemConfigFile) (e : GoError)
    (hread : w.ReadFile path = .ok content) (hdec : w.UnmarshalSystems content = .ok config)
    (he : (FindSystem w name path p₀).1 = .error e) :
    (config.Verify path = none ∧ e = .systemNotFound name ∧ Mentions e.Error name) ∨
    (∃ v, config.Verify path = some v ∧ e = .invalidConfig v ∧ Mentions e.Error path ∧
      match v with
      | .dupSystemName n _ => Mentions e.Error n
      | .dupAliasFile a _ => Mentions e.Error a
      | .noRabbits n _ => Mentions e.Error n
      | .dupCompute c n _ => Mentions e.Error c ∧ Mentions e.Error n
      | .dupAliasSystem a n _ => Mentions e.Error a ∧ Mentions e.Error n
      | .noOverlays n _ => Mentions e.Error n
      | .dupOverlay o n _ => Mentions e.Error o ∧ Mentions e.Error n
      | .noWorkers n _ => Mentions e.Error n
      | .dupWorker x n _ => Mentions e.Error x ∧ Mentions e.Error n
      | _ => False) := by
  cases hv : config.Verify path with
  | none =>
    left
    rw [FindSystem_ok w name path p₀ content config hread hdec hv] at he
    cases hf : findSystemLoop name config.Systems with
    | some s =>
      rw [hf] at he
      cases he
    | none =>
      rw [hf] at he
      cases he
      refine ⟨rfl, rfl, ?_⟩
      simp only [GoError.Error]
      exact mentions_mid _ _ _
  | some v =>
    right
    have hF : (FindSystem w name path p₀).1 = .error (.invalidConfig v) := by
      simp [FindSystem, ReadConfig, hread, hdec, hv]
    rw [hF] at he
    cases he
    refine ⟨v, rfl, rfl, ?_⟩
    rcases fileVerify_error_form path config v hv with ⟨n, rfl⟩ | ⟨a, rfl⟩ | ⟨n, rfl⟩
      | ⟨c, n, rfl⟩ | ⟨a, n, rfl⟩ | ⟨n, rfl⟩ | ⟨o, n, rfl⟩ | ⟨n, rfl⟩ | ⟨x, n, rfl⟩
    all_goals simp only [GoError.Error]
    · exact ⟨mentions_of_suffix _ _ _ (mentions_mid _ _ _),
        mentions_of_suffix _ _ _ (mentions_mid_more _ _ _ _ _)⟩
    · exact ⟨mentions_of_suffix _ _ _ (mentions_mid _ _ _),
        mentions_of_suffix _ _ _ (mentions_mid_more _ _ _ _ _)⟩
    · exact ⟨mentions_of_suffix _ _ _ (mentions_mid _ _ _),
        mentions_of_suffix _ _ _ (mentions_mid_more _ _ _ _ _)⟩
    · exact ⟨mentions_of_suffix _ _ _ (mentions_mid _ _ _),
        mentions_of_suffix _ _ _ (mentions_first7 _ _ _ _ _ _ _),
        mentions_of_suffix _ _ _ (mentions_mid_more _ _ _ _ _)⟩
    · exact ⟨mentions_of_suffix _ _ _ (mentions_mid _ _ _),
        mentions_of_suffix _ _ _ (mentions_first7 _ _ _ _ _ _ _),
        mentions_of_suffix _ _ _ (mentions_mid_more _ _ _ _ _)⟩
    · exact ⟨mentions_of_suffix _ _ _ (mentions_mid _ _ _),
        mentions_of_suffix _ _ _ (mentions_mid_more _ _ _ _ _)⟩
    · exact ⟨mentions_of_suffix _ _ _ (mentions_mid _ _ _),
        mentions_of_suffix _ _ _ (mentions_first7 _ _ _ _ _ _ _),
        mentions_of_suffix _ _ _ (mentions_mid_more _ _ _ _ _)⟩
    · exact ⟨mentions_of_suffix _ _ _ (mentions_mid _ _ _),
        mentions_of_suffix _ _ _ (mentions_mid_more _ _ _ _ _)⟩
    · exact ⟨mentions_of_suffix _ _ _ (mentions_mid _ _ _),
        mentions_of_suffix _ _ _ (mentions_first7 _ _ _ _ _ _ _),
        mentions_of_suffix _ _ _ (mentions_mid_more _ _ _ _ _)⟩

/-- An error of the loop of `SystemConfigFile.Verify` that comes from
`System.Verify` comes from a system whose alias list the loop found free of
repeats. -/
theorem verifySystems_error_source (p : String) (kn ka : List String) (l : List System)
    (e : GoError) (h : verifySystems p kn ka l = some e) :
    (∃ n, e = .dupSystemName n p) ∨ (∃ a, e = .dupAliasFile a p) ∨
    (∃ s ∈ l, s.Aliases.Nodup ∧ s.Verify p = some e) := by
  induction l generalizing kn ka with
  | nil => simp [verifySystems] at h
  | cons s rest ih =>
    rw [verifySystems] at h
    by_cases hn : s.Name ∈ kn
    · rw [if_pos hn] at h
      cases h
      exact Or.inl ⟨_, rfl⟩
    rw [if_neg hn] at h
    cases hA : scanKnown ka s.Aliases with
    | error a =>
      rw [hA] at h
      cases h
      exact Or.inr (Or.inl ⟨_, rfl⟩)
    | ok ka' =>
      rw [hA] at h
      have hnd := ((scanKnown_ok_iff ka s.Aliases ka').1 hA).1
      cases hV : s.Verify p with
      | some e' =>
        rw [hV] at h
        cases h
        exact Or.inr (Or.inr ⟨s, List.mem_cons_self _ _, hnd, hV⟩)
      | none =>
        rw [hV] at h
        rcases ih _ _ h with h1 | h1 | ⟨t, ht, htn, hte⟩
        · exact Or.inl h1
        · exact Or.inr (Or.inl h1)
        · exact Or.inr (Or.inr ⟨t, List.mem_cons_of_mem _ ht, htn, hte⟩)

theorem systemVerify_alias_error (p : String) (s : System) (a n q : String)
    (h : s.Verify p = some (.dupAliasSystem a n q)) : ¬ s.Aliases.Nodup := by
  rcases systemVerify_table p s with h' | ⟨h1, h2, c, -, h'⟩ | ⟨h1, h2, h3, b, -, h'⟩ | h'
      | ⟨h1, h2, h3, h4, h5, o, -, h'⟩ | h' | ⟨h1, h2, h3, h4, h5, h6, h7, x, -, h'⟩ | h'
  all_goals simp_all

/-- C16. `SystemConfigFile.Verify` never returns the per-system alias error: a
system whose alias list holds a repeat is stopped by the file-wide checks,
which run before `System.Verify` is called for it. -/
theorem SystemConfigFile_Verify_never_system_alias (p : String) (config : SystemConfigFile) :
    (∀ a n q, config.Verify p ≠ some (.dupAliasSystem a n q)) ∧
    (∀ pre s post, config.Systems = pre ++ s :: post →
      (SystemConfigFile.mk pre).Verify p = none → ¬ s.Aliases.Nodup →
      config.Verify p = some (.dupSystemName s.Name p) ∨
      ∃ a, a ∈ s.Aliases ∧ config.Verify p = some (.dupAliasFile a p)) := by
  constructor
  · intro a n q h
    rcases verifySystems_error_source p [] [] config.Systems _ h with
      ⟨m, hm⟩ | ⟨b, hb⟩ | ⟨s, -, hnd, hs⟩
    · cases hm
    · cases hb
    · exact systemVerify_alias_error p s a n q hs hnd
  · intro pre s post hsplit hpre hrep
    unfold SystemConfigFile.Verify at hpre ⊢
    rw [hsplit, verifySystems_append p [] [] pre (s :: post) hpre, verifySystems]
    by_cases hn : s.Name ∈ (pre.map System.Name).reverse ++ []
    · left
      rw [if_pos hn]
    · right
      rw [if_neg hn]
      cases hA : scanKnown ((pre.map System.Aliases).flatten.reverse ++ []) s.Aliases with
      | error a => exact ⟨a, (scanKnown_error_count _ _ a hA).1, rfl⟩
      | ok k => exact absurd ((scanKnown_ok_iff _ _ k).1 hA).1 hrep

/-- C17. A file can pass `Verify` with the name of its second system listed as
an alias of its first; `FindSystem` on that name then returns the first
system, not the one bearing the name. -/
theorem FindSystem_name_shadowed_by_alias :
    ∃ (config : SystemConfigFile) (A B : System) (w : World) (path content : String),
      config.Systems = [A, B] ∧ A ≠ B ∧ B.Name ∈ A.Aliases ∧
      w.ReadFile path = .ok content ∧ w.UnmarshalSystems content = .ok config ∧
      config.Verify path = none ∧
      (FindSystem w B.Name path "").1 = .ok A ∧ (FindSystem w B.Name path "").1 ≠ .ok B := by
  refine ⟨aliasedNameSystems, sampleSystem "clusterX" ["clusterY"], sampleSystem "clusterY" [],
    sampleWorld aliasedNameSystems, "systems.yaml", "systems.yaml", rfl, by decide, by decide,
    rfl, rfl, by decide, rfl, ?_⟩
  intro h
  have h₁ : (FindSystem (sampleWorld aliasedNameSystems) (sampleSystem "clusterY" []).Name
      "systems.yaml" "").1 = .ok (sampleSystem "clusterX" ["clusterY"]) := rfl
  rw [h₁] at h
  injection h with h
  exact absurd h (by decide)

/-! ## Iteration order of the rabbits mapping -/

theorem sameRabbits_nil_iff (r r' : List (String × List (Int × String)))
    (h : SameRabbits r r') : r = [] ↔ r' = [] := by
  obtain ⟨m, h₁, h₂⟩ := h
  have hl : r.length = r'.length := h₁.length_eq.trans h₂.length_eq
  constructor
  · intro hr
    rw [hr] at hl
    exact List.length_eq_zero.1 hl.symm
  · intro hr
    rw [hr] at hl
    exact List.length_eq_zero.1 hl

theorem sameRabbits_computes_perm (r r' : List (String × List (Int × String)))
    (h : SameRabbits r r') :
    ((r.map (fun rabbit => rabbit.2.map Prod.snd)).flatten).Perm
      ((r'.map (fun rabbit => rabbit.2.map Prod.snd)).flatten) := by
  have key : ∀ a b : List (String × List (Int × String)),
      List.Forall₂ (fun x y => x.1 = y.1 ∧ x.2.Perm y.2) a b →
      ((a.map (fun rabbit => rabbit.2.map Prod.snd)).flatten).Perm
        ((b.map (fun rabbit => rabbit.2.map Prod.snd)).flatten) := by
    intro a b hab
    induction hab with
    | nil => exact List.Perm.refl _
    | cons hxy _ ih =>
      simp only [List.map_cons, List.flatten_cons]
      exact (hxy.2.map _).append ih
  obtain ⟨m, h₁, h₂⟩ := h
  exact (key r m h₁).trans ((h₂.map _).flatten)

theorem systemVerify_withRabbits_eq (p : String) (s : System)
    (r' : List (String × List (Int × String))) (hR : s.Rabbits ≠ []) (hR' : r' ≠ [])
    (hC : s.computes.Nodup) (hC' : (s.withRabbits r').computes.Nodup) :
    (s.withRabbits r').Verify p = s.Verify p := by
  obtain ⟨k, hk⟩ := (scanKnown_nil_ok_iff _).2 hC
  obtain ⟨k', hk'⟩ := (scanKnown_nil_ok_iff _).2 hC'
  have e₁ : scanRabbits [] s.Rabbits = .ok k := by rw [scanRabbits_eq]; exact hk
  have e₂ : scanRabbits [] (s.withRabbits r').Rabbits = .ok k' := by
    rw [scanRabbits_eq]; exact hk'
  have l₁ : ¬ s.Rabbits.length < 1 := by rwa [length_lt_one_iff]
  have l₂ : ¬ (s.withRabbits r').Rabbits.length < 1 := by
    rw [length_lt_one_iff]; exact hR'
  unfold System.Verify
  rw [if_neg l₁, if_neg l₂, e₁, e₂]
  rfl

theorem systemVerify_withRabbits (p : String) (s : System)
    (r' : List (String × List (Int × String))) (h : SameRabbits s.Rabbits r') :
    (s.withRabbits r').Verify p = s.Verify p ∨
    ∃ c c', s.Verify p = some (.dupCompute c s.Name p) ∧
      (s.withRabbits r').Verify p = some (.dupCompute c' s.Name p) := by
  have hnil := sameRabbits_nil_iff _ _ h
  have hperm : s.computes.Perm (s.withRabbits r').computes := sameRabbits_computes_perm _ _ h
  by_cases hR : s.Rabbits = []
  · left
    have hR' : r' = [] := hnil.1 hR
    simp [System.Verify, System.withRabbits, hR, hR']
  · have hR' : r' ≠ [] := fun hh => hR (hnil.2 hh)
    by_cases hC : s.computes.Nodup
    · exact Or.inl (systemVerify_withRabbits_eq p s r' hR hR' hC (hperm.nodup_iff.1 hC))
    · right
      have hC' : ¬ (s.withRabbits r').computes.Nodup := fun hh => hC (hperm.nodup_iff.2 hh)
      have t₁ : ∃ c, s.Verify p = some (.dupCompute c s.Name p) := by
        rcases systemVerify_table p s with h' | ⟨h1, h2, c, -, h'⟩ | ⟨h1, h2, h3, b, -, h'⟩ | h'
          | ⟨h1, h2, h3, h4, h5, o, -, h'⟩ | h' | ⟨h1, h2, h3, h4, h5, h6, h7, x, -, h'⟩ | h'
        · exact absurd h'.1 hR
        · exact ⟨c, h'⟩
        · exact absurd h2 hC
        · exact absurd h'.2.1 hC
        · exact absurd h2 hC
        · exact absurd h'.2.1 hC
        · exact absurd h2 hC
        · exact absurd h'.2.1 hC
      have t₂ : ∃ c, (s.withRabbits r').Verify p = some (.dupCompute c s.Name p) := by
        rcases systemVerify_table p (s.withRabbits r') with h' | ⟨h1, h2, c, -, h'⟩
          | ⟨h1, h2, h3, b, -, h'⟩ | h' | ⟨h1, h2, h3, h4, h5, o, -, h'⟩ | h'
          | ⟨h1, h2, h3, h4, h5, h6, h7, x, -, h'⟩ | h'
        · exact absurd h'.1 hR'
        · exact ⟨c, h'⟩
        · exact absurd h2 hC'
        · exact absurd h'.2.1 hC'
        · exact absurd h2 hC'
        · exact absurd h'.2.1 hC'
        · exact absurd h2 hC'
        · exact absurd h'.2.1 hC'
      obtain ⟨c, hc⟩ := t₁
      obtain ⟨c', hc'⟩ := t₂
      exact ⟨c, c', hc, hc'⟩

/-- C18. The outcome of `System.Verify` does not depend on the order in which
the rabbits and their slots are visited: success and every error other than
the duplicate-compute one are the same for two enumerations of one mapping,
and the duplicate-compute error is returned for one exactly when it is for the
other, the compute node cited apart. -/
theorem System_Verify_rabbits_order (p : String) (s : System)
    (r' : List (String × List (Int × String))) (h : SameRabbits s.Rabbits r') :
    ((s.withRabbits r').Verify p = none ↔ s.Verify p = none) ∧
    (∀ e, (∀ c n q, e ≠ .dupCompute c n q) →
      ((s.withRabbits r').Verify p = some e ↔ s.Verify p = some e)) ∧
    ((∃ c n q, (s.withRabbits r').Verify p = some (.dupCompute c n q)) ↔
      (∃ c n q, s.Verify p = some (.dupCompute c n q))) := by
  rcases systemVerify_withRabbits p s r' h with heq | ⟨c, c', hc, hc'⟩
  · rw [heq]
    exact ⟨Iff.rfl, fun _ _ => Iff.rfl, Iff.rfl⟩
  · rw [hc, hc']
    refine ⟨by simp, ?_, ?_⟩
    · intro e he
      constructor
      · intro h'
        cases h'
        exact absurd rfl (he _ _ _)
      · intro h'
        cases h'
        exact absurd rfl (he _ _ _)
    · exact ⟨fun _ => ⟨c, _, _, rfl⟩, fun _ => ⟨c', _, _, rfl⟩⟩

/-! ## The later claims at sample inputs -/

theorem readConfigFile_fallback_counterexample :
    fallbackUndecodableWorld.ReadFile "missing.yaml" = .error (.external "no such file") ∧
    fallbackUndecodableWorld.ReadFile (fallbackUndecodableWorld.Join ".." "missing.yaml")
      = .ok "../missing.yaml" ∧
    readConfigFile fallbackUndecodableWorld "missing.yaml"
      = .error (.external "yaml: unmarshal errors") ∧
    ∀ config, readConfigFile fallbackUndecodableWorld "missing.yaml" ≠ .ok config := by
  refine ⟨rfl, rfl, rfl, ?_⟩
  intro config h
  have h' : readConfigFile fallbackUndecodableWorld "missing.yaml"
      = .error (.external "yaml: unmarshal errors") := rfl
  rw [h'] at h
  cases h

theorem readConfigFile_fallback_witness :
    readConfigFile (sampleWorld sampleSystems) "repositories.yaml" = .ok sampleRepositories ∧
    readConfigFile (sampleWorld sampleSystems) "missing.yaml" = .ok sampleRepositories ∧
    readConfigFile fallbackUndecodableWorld "missing.yaml"
      = .error (.external "yaml: unmarshal errors") ∧
    readConfigFile unreadableWorld "missing.yaml"
      = .error (.external "open ../missing.yaml: no such file or directory") :=
  ⟨((readConfigFile_fallback (sampleWorld sampleSystems) "repositories.yaml").1
      "repositories.yaml" rfl).2.1 sampleRepositories rfl,
    ((readConfigFile_fallback (sampleWorld sampleSystems) "missing.yaml").2.1
      (.external "no such file") "../missing.yaml" rfl rfl).2.1 sampleRepositories rfl,
    ((readConfigFile_fallback fallbackUndecodableWorld "missing.yaml").2.1
      (.external "no such file") "../missing.yaml" rfl rfl).2.2
      (.external "yaml: unmarshal errors") rfl,
    (readConfigFile_fallback unreadableWorld "missing.yaml").2.2
      (.external "open missing.yaml: no such file or directory")
      (.external "open ../missing.yaml: no such file or directory") rfl rfl⟩

theorem GetThirdPartyServices_all_witness :
    GetThirdPartyServices servicesWorld "repositories.yaml"
      = .ok serviceRepositories.ThirdPartyServices ∧
    ∀ services, GetThirdPartyServices servicesWorld "repositories.yaml" = .ok services →
      services.length = serviceRepositories.ThirdPartyServices.length ∧
      ∀ (i : Nat), services[i]? = serviceRepositories.ThirdPartyServices[i]? :=
  GetThirdPartyServices_all servicesWorld "repositories.yaml" serviceRepositories rfl

theorem load_error_propagation_counterexample :
    ∃ cause, unreadableWorld.ReadFile "daemons.yaml" = .error cause ∧
      (EnumerateDaemons unreadableWorld "daemons.yaml" sampleHandler 0).1 = some cause ∧
      cause.Error = "open daemons.yaml: no such file or directory" :=
  ⟨.external "open daemons.yaml: no such file or directory", rfl, rfl, rfl⟩

theorem load_error_propagation_witness :
    ((FindSystem unreadableWorld "clusterX" "systems.yaml" "").1
        = .error (.couldNotRead (.external "open systems.yaml: no such file or directory")) ∧
      (GoError.couldNotRead (.external "open systems.yaml: no such file or directory")).Error
        = "could not read system config: "
            ++ (GoError.external "open systems.yaml: no such file or directory").Error) ∧
    ((FindSystem undecodableWorld "clusterX" "systems.yaml" "").1
        = .error (.invalidYaml (.external "yaml: unmarshal errors")) ∧
      (GoError.invalidYaml (.external "yaml: unmarshal errors")).Error
        = "invalid system config yaml: " ++ (GoError.external "yaml: unmarshal errors").Error) ∧
    (FindRepository unreadableWorld "repositories.yaml" "repoA"
        = (none, none,
            some (.external "open ../repositories.yaml: no such file or directory")) ∧
      GetThirdPartyServices unreadableWorld "repositories.yaml"
        = .error (.external "open ../repositories.yaml: no such file or directory")) ∧
    (FindRepository undecodableWorld "repositories.yaml" "repoA"
        = (none, none, some (.external "yaml: unmarshal errors")) ∧
      GetThirdPartyServices undecodableWorld "repositories.yaml"
        = .error (.external "yaml: unmarshal errors")) ∧
    EnumerateDaemons unreadableWorld "daemons.yaml" sampleHandler 0
      = (some (.external "open daemons.yaml: no such file or directory"), 0) ∧
    EnumerateDaemons undecodableWorld "daemons.yaml" sampleHandler 0
      = (some (.external "yaml: unmarshal errors"), 0) :=
  ⟨(load_error_propagation Nat unreadableWorld "systems.yaml").1 "clusterX" ""
      (.external "open systems.yaml: no such file or directory") rfl,
    (load_error_propagation Nat undecodableWorld "systems.yaml").2.1 "clusterX" ""
      "systems.yaml" (.external "yaml: unmarshal errors") rfl rfl,
    (load_error_propagation Nat unreadableWorld "repositories.yaml").2.2.1 "repoA"
      (.external "open repositories.yaml: no such file or directory")
      (.external "open ../repositories.yaml: no such file or directory") rfl rfl,
    (load_error_propagation Nat undecodableWorld "repositories.yaml").2.2.2.1 "repoA"
      "repositories.yaml" (.external "yaml: unmarshal errors") (Or.inl rfl) rfl,
    (load_error_propagation Nat unreadableWorld "daemons.yaml").2.2.2.2.1 sampleHandler 0
      (.external "open daemons.yaml: no such file or directory") rfl,
    (load_error_propagation Nat undecodableWorld "daemons.yaml").2.2.2.2.2 sampleHandler 0
      "daemons.yaml" (.external "yaml: unmarshal errors") rfl rfl⟩

theorem FindSystem_error_messages_counterexample :
    (sampleWorld sampleSystems).ReadFile "systems.yaml" = .ok "systems.yaml" ∧
    (sampleWorld sampleSystems).UnmarshalSystems "systems.yaml" = .ok sampleSystems ∧
    (FindSystem (sampleWorld sampleSystems) "unknown" "systems.yaml" "").1
      = .error (.systemNotFound "unknown") ∧
    ¬ Mentions (GoError.systemNotFound "unknown").Error "systems.yaml" :=
  ⟨rfl, rfl, rfl, by decide⟩

theorem FindSystem_error_messages_witness :
    (bareSharedAliasSystems.Verify "systems.yaml" = none ∧
      GoError.invalidConfig (.noRabbits "clusterX" "systems.yaml") = .systemNotFound "clusterY" ∧
      Mentions (GoError.invalidConfig (.noRabbits "clusterX" "systems.yaml")).Error "clusterY") ∨
    (∃ v, bareSharedAliasSystems.Verify "systems.yaml" = some v ∧
      GoError.invalidConfig (.noRabbits "clusterX" "systems.yaml") = .invalidConfig v ∧
      Mentions (GoError.invalidConfig (.noRabbits "clusterX" "systems.yaml")).Error
        "systems.yaml" ∧
      match v with
      | .dupSystemName n _ =>
          Mentions (GoError.invalidConfig (.noRabbits "clusterX" "systems.yaml")).Error n
      | .dupAliasFile a _ =>
          Mentions (GoError.invalidConfig (.noRabbits "clusterX" "systems.yaml")).Error a
      | .noRabbits n _ =>
          Mentions (GoError.invalidConfig (.noRabbits "clusterX" "systems.yaml")).Error n
      | .dupCompute c n _ =>
          Mentions (GoError.invalidConfig (.noRabbits "clusterX" "systems.yaml")).Error c ∧
          Mentions (GoError.invalidConfig (.noRabbits "clusterX" "systems.yaml")).Error n
      | .dupAliasSystem a n _ =>
          Mentions (GoError.invalidConfig (.noRabbits "clusterX" "systems.yaml")).Error a ∧
          Mentions (GoError.invalidConfig (.noRabbits "clusterX" "systems.yaml")).Error n
      | .noOverlays n _ =>
          Mentions (GoError.invalidConfig (.noRabbits "clusterX" "systems.yaml")).Error n
      | .dupOverlay o n _ =>
          Mentions (GoError.invalidConfig (.noRabbits "clusterX" "systems.yaml")).Error o ∧
          Mentions (GoError.invalidConfig (.noRabbits "clusterX" "systems.yaml")).Error n
      | .noWorkers n _ =>
          Mentions (GoError.invalidConfig (.noRabbits "clusterX" "systems.yaml")).Error n
      | .dupWorker x n _ =>
          Mentions (GoError.invalidConfig (.noRabbits "clusterX" "systems.yaml")).Error x ∧
          Mentions (GoError.invalidConfig (.noRabbits "clusterX" "systems.yaml")).Error n
      | _ => False) :=
  FindSystem_error_messages (sampleWorld bareSharedAliasSystems) "clusterY" "systems.yaml" ""
    "systems.yaml" bareSharedAliasSystems
    (.invalidConfig (.noRabbits "clusterX" "systems.yaml")) rfl rfl rfl

theorem ReadConfig_recorded_path_counterexample :
    (ReadConfig unreadableWorld "systems.yaml" "earlier.yaml").1
      = .error (.couldNotRead (.external "open systems.yaml: no such file or directory")) ∧
    (ReadConfig unreadableWorld "systems.yaml" "earlier.yaml").2 = "earlier.yaml" ∧
    (ReadConfig unreadableWorld "systems.yaml" "earlier.yaml").2 ≠ "systems.yaml" :=
  ⟨rfl, rfl, by decide⟩

theorem ReadConfig_recorded_path_witness :
    (ReadConfig (sampleWorld bareSharedAliasSystems) "systems.yaml" "earlier.yaml").2
      = "systems.yaml" ∧
    (ReadConfig unreadableWorld "systems.yaml" "earlier.yaml").2 = "earlier.yaml" ∧
    (ReadConfig undecodableWorld "systems.yaml" "earlier.yaml").2 = "earlier.yaml" :=
  ⟨(ReadConfig_recorded_path (sampleWorld bareSharedAliasSystems) "systems.yaml"
      "earlier.yaml").1 "systems.yaml" bareSharedAliasSystems rfl rfl,
    (ReadConfig_recorded_path unreadableWorld "systems.yaml" "earlier.yaml").2.1
      (.external "open systems.yaml: no such file or directory") rfl,
    (ReadConfig_recorded_path undecodableWorld "systems.yaml" "earlier.yaml").2.2
      "systems.yaml" (.external "yaml: unmarshal errors") rfl rfl⟩

theorem System_Verify_rabbits_order_witness :
    SameRabbits crossedSystem.Rabbits crossedRabbitsReversed ∧
    crossedSystem.Verify "systems.yaml" = some (.dupCompute "y" "clusterX" "systems.yaml") ∧
    (crossedSystem.withRabbits crossedRabbitsReversed).Verify "systems.yaml"
      = some (.dupCompute "x" "clusterX" "systems.yaml") ∧
    ((∃ c n q, (crossedSystem.withRabbits crossedRabbitsReversed).Verify "systems.yaml"
        = some (.dupCompute c n q)) ↔
      (∃ c n q, crossedSystem.Verify "systems.yaml" = some (.dupCompute c n q))) :=
  have h : SameRabbits crossedSystem.Rabbits crossedRabbitsReversed :=
    ⟨crossedSystem.Rabbits,
      List.Forall₂.cons ⟨rfl, List.Perm.refl _⟩
        (List.Forall₂.cons ⟨rfl, List.Perm.refl _⟩ List.Forall₂.nil),
      List.Perm.swap _ _ _⟩
  ⟨h, by decide, by decide,
    (System_Verify_rabbits_order "systems.yaml" crossedSystem crossedRabbitsReversed h).2.2⟩

theorem SystemConfigFile_Verify_never_system_alias_witness :
    (SystemConfigFile.mk [sampleSystem "clusterX" ["a1", "a1"]]).Verify "systems.yaml"
        = some (.dupSystemName "clusterX" "systems.yaml") ∨
    ∃ a, a ∈ (sampleSystem "clusterX" ["a1", "a1"]).Aliases ∧
      (SystemConfigFile.mk [sampleSystem "clusterX" ["a1", "a1"]]).Verify "systems.yaml"
        = some (.dupAliasFile a "systems.yaml") :=
  (SystemConfigFile_Verify_never_system_alias "systems.yaml"
    (SystemConfigFile.mk [sampleSystem "clusterX" ["a1", "a1"]])).2
    [] (sampleSystem "clusterX" ["a1", "a1"]) [] rfl rfl (by decide)

end config
